import Mathlib

/-!
Shallow embedding of the grid-based room generator (AMasterRoom) and proofs
about its packing, door-layout and layer-composition algorithms.

Conventions of the embedding:
* machine floats that only ever hold exactly representable values
  (cell coordinates, half-cells, weights, offsets) are modelled as rationals;
* a TSoftObjectPtr whose LoadSynchronous may fail is an Option;
* FRotator and FTransform values are kept as formal terms (an inductive of
  the constructors the generator uses: literal rotators, rotator addition,
  transform composition), so that equality of transforms is equality of the
  computation the generator performed;
* the engine-side instance sink (HISM components) is modelled as the ordered
  list of (mesh, world transform) placements the generator emits.
-/

namespace DungeonGen

/-- Exact 3-component vector standing in for FVector at the values the
generator computes (all arithmetic on them is exact). -/
structure Vec3 where
  x : ℚ
  y : ℚ
  z : ℚ
deriving DecidableEq, Repr

instance : Add Vec3 := ⟨fun a b => ⟨a.x + b.x, a.y + b.y, a.z + b.z⟩⟩

theorem Vec3.add_def (a b : Vec3) :
    a + b = ⟨a.x + b.x, a.y + b.y, a.z + b.z⟩ := rfl

/-- Formal rotation values: the generator only ever builds literal rotators
(pitch, yaw, roll in degrees) and componentwise sums of rotators, so a free
representation of those two constructors is a faithful carrier. -/
inductive Rot where
  | rotator (pitch yaw roll : ℚ) : Rot
  | radd (a b : Rot) : Rot
deriving DecidableEq, Repr

/-- FRotator::ZeroRotator. -/
def Rot.zero : Rot := Rot.rotator 0 0 0

/-- Formal transform values: FTransform built from a rotator and a location,
and FTransform multiplication (comp a b stands for the C++ expression A * B:
apply a, then b). -/
inductive Transform where
  | mk (rot : Rot) (pos : Vec3) : Transform
  | comp (a b : Transform) : Transform
deriving DecidableEq, Repr

/-- EGridCellType. -/
inductive CellType where
  | ECT_Empty
  | ECT_FloorMesh
  | ECT_Wall
  | ECT_Doorway
deriving DecidableEq, Repr

/-- EWallEdge. -/
inductive WallEdge where
  | North
  | South
  | East
  | West
deriving DecidableEq, Repr

/-- CELL_SIZE = 100.0f. -/
def CELL_SIZE : ℚ := 100

/-- Truncation toward zero, as the float-to-int32 conversions the generator
performs. -/
def ratTrunc (q : ℚ) : Int :=
  if 0 ≤ q then Int.floor q else Int.ceil q

/-- FRandomStream: a 32-bit LCG state.  Only determinism and range facts
about its draws matter to the verified claims. -/
structure FRandomStream where
  state : Nat
deriving DecidableEq, Repr

/-- FRandomStream constructed from the generation seed. -/
def mkStream (seed : Nat) : FRandomStream := ⟨seed % 2 ^ 32⟩

/-- FRandomStream::MutateSeed. -/
def FRandomStream.mutate (s : FRandomStream) : FRandomStream :=
  ⟨(s.state * 196314165 + 907633515) % 2 ^ 32⟩

/-- The fraction in [0,1) built from the mutated state's mantissa bits. -/
def FRandomStream.fracVal (s : FRandomStream) : ℚ :=
  ((s.mutate.state / 2 ^ 9) % 2 ^ 23 : ℕ) / (2 ^ 23 : ℚ)

/-- FRandomStream::FRand: mutate, return a fraction in [0,1). -/
def FRandomStream.frand (s : FRandomStream) : ℚ × FRandomStream :=
  (s.fracVal, s.mutate)

/-- FRandomStream::FRandRange(lo, hi) = lo + (hi - lo) * FRand(). -/
def FRandomStream.frandRange (s : FRandomStream) (lo hi : ℚ) : ℚ × FRandomStream :=
  let p := s.frand
  (lo + (hi - lo) * p.1, p.2)

/-- FRandomStream::RandRange(lo, hi): lo + RandHelper(hi - lo + 1); the
helper draws only when the range is positive. -/
def FRandomStream.randRange (s : FRandomStream) (lo hi : Int) : Int × FRandomStream :=
  let range := hi - lo + 1
  if 0 < range then
    let p := s.frand
    (lo + min (ratTrunc (p.1 * range)) (range - 1), p.2)
  else
    (lo, s)

theorem FRandomStream.fracVal_nonneg (s : FRandomStream) : 0 ≤ s.fracVal := by
  unfold FRandomStream.fracVal
  positivity

theorem FRandomStream.fracVal_lt_one (s : FRandomStream) : s.fracVal < 1 := by
  unfold FRandomStream.fracVal
  rw [div_lt_one (by norm_num)]
  have h : (s.mutate.state / 2 ^ 9) % 2 ^ 23 < 2 ^ 23 := Nat.mod_lt _ (by norm_num)
  exact_mod_cast h

theorem ratTrunc_nonneg {q : ℚ} (h : 0 ≤ q) : 0 ≤ ratTrunc q := by
  unfold ratTrunc
  rw [if_pos h]
  exact_mod_cast Int.le_floor.mpr (by exact_mod_cast h)

/-- RandRange stays within its bounds when the bounds are ordered. -/
theorem FRandomStream.randRange_bounds (s : FRandomStream) (lo hi : Int)
    (hle : lo ≤ hi) :
    lo ≤ (s.randRange lo hi).1 ∧ (s.randRange lo hi).1 ≤ hi := by
  unfold FRandomStream.randRange
  have hr : (0 : Int) < hi - lo + 1 := by omega
  simp only [if_pos hr]
  constructor
  · have h0 : 0 ≤ ratTrunc (s.frand.1 * (hi - lo + 1 : Int)) := by
      apply ratTrunc_nonneg
      have := s.fracVal_nonneg
      have hc : (0 : ℚ) ≤ ((hi - lo + 1 : Int) : ℚ) := by exact_mod_cast le_of_lt hr
      exact mul_nonneg this hc
    have : 0 ≤ min (ratTrunc (s.frand.1 * (hi - lo + 1 : Int))) (hi - lo + 1 - 1) := by
      apply le_min h0
      omega
    omega
  · have : min (ratTrunc (s.frand.1 * (hi - lo + 1 : Int))) (hi - lo + 1 - 1) ≤ hi - lo := by
      have := min_le_right (ratTrunc (s.frand.1 * (hi - lo + 1 : Int))) (hi - lo + 1 - 1)
      omega
    omega

/-! ## Data model (GridData.h, WallData.h, DoorData.h, CeilingData.h, RoomData) -/

/-- A resolved UStaticMesh: an identity, the optional TopBackCenter socket
(relative location and rotation) and the Z half-extent of its bounds. -/
structure MeshData where
  id : Nat
  socketTopBackCenter : Option (Vec3 × Rot)
  boundsExtentZ : ℚ
deriving DecidableEq, Repr

/-- FMeshPlacementInfo. -/
structure MeshPlacementInfo where
  meshAsset : Option MeshData
  gridFootprintX : Int
  gridFootprintY : Int
  placementWeight : ℚ
  allowedRotations : List Int
deriving DecidableEq, Repr

instance : Inhabited MeshPlacementInfo :=
  ⟨{ meshAsset := none, gridFootprintX := 1, gridFootprintY := 1,
     placementWeight := 1, allowedRotations := [0] }⟩

/-- FWallModule. -/
structure WallModule where
  yAxisFootprint : Int
  baseMesh : Option MeshData
  middle1Mesh : Option MeshData
  middle2Mesh : Option MeshData
  topMesh : Option MeshData
  placementWeight : ℚ
deriving DecidableEq, Repr

/-- FForcedWallPlacement. -/
structure ForcedWallPlacement where
  edge : WallEdge
  startCell : Int
  wallModule : WallModule
deriving DecidableEq, Repr

/-- FForcedEmptyRegion. -/
structure ForcedEmptyRegion where
  startCell : Int × Int
  endCell : Int × Int
deriving DecidableEq, Repr

/-- FDoorPositionOffsets. -/
structure DoorPositionOffsets where
  framePositionOffset : Vec3
  actorPositionOffset : Vec3
deriving DecidableEq, Repr

/-- One UDoorData asset as the generator reads it: frame mesh, footprint,
rotation correction and weight. -/
structure DoorSpec where
  frameSideMesh : Option MeshData
  frameFootprintY : Int
  frameRotationOffset : Rot
  placementWeight : ℚ
deriving DecidableEq, Repr

/-- The UDoorData asset referenced by RoomData, together with its
DoorStylePool (pool entries may be null pointers). -/
structure DoorStyleData where
  base : DoorSpec
  doorStylePool : List (Option DoorSpec)
deriving DecidableEq, Repr

/-- FFixedDoorLocation (the DoorData pointer may be null). -/
structure FixedDoorLocation where
  wallEdge : WallEdge
  startCell : Int
  doorData : Option DoorSpec
  doorPositionOffsets : DoorPositionOffsets
deriving DecidableEq, Repr

/-- UFloorData. -/
structure FloorData where
  floorTilePool : List MeshPlacementInfo
  defaultFillerTile : Option MeshData
deriving DecidableEq, Repr

/-- UWallData. -/
structure WallData where
  availableWallModules : List WallModule
  defaultCornerMesh : Option MeshData
  southWestCornerOffset : Vec3
  northWestCornerOffset : Vec3
  northEastCornerOffset : Vec3
  southEastCornerOffset : Vec3
  northWallOffsetX : ℚ
  southWallOffsetX : ℚ
  eastWallOffsetY : ℚ
  westWallOffsetY : ℚ
deriving DecidableEq, Repr

/-- FCeilingTile. -/
structure CeilingTile where
  mesh : Option MeshData
  placementWeight : ℚ
deriving DecidableEq, Repr

/-- UCeilingData. -/
structure CeilingData where
  largeTilePool : List CeilingTile
  smallTilePool : List CeilingTile
  ceilingHeight : ℚ
  ceilingRotation : Rot
deriving DecidableEq, Repr

/-- URoomShapePreset (only the fields the generator reads). -/
structure RoomShapePreset where
  emptyRegions : List ForcedEmptyRegion
  emptyCells : List (Int × Int)
deriving DecidableEq, Repr

/-- The AMasterRoom configuration for one generation run: RoomData grid size,
the resolved style assets (a None marks a style asset that fails to load) and
every designer override except the FixedDoorLocations list, which is caller
state threaded separately because procedural-door mode rewrites it. -/
structure MasterRoomCfg where
  gridW : Nat
  gridH : Nat
  actorLocation : Vec3
  floorData : Option FloorData
  wallData : Option WallData
  doorStyleData : Option DoorStyleData
  ceilingData : Option CeilingData
  shapePreset : Option RoomShapePreset
  forcedEmptyRegions : List ForcedEmptyRegion
  forcedEmptyFloorCells : List (Int × Int)
  forcedInteriorPlacements : List ((Int × Int) × MeshPlacementInfo)
  forcedWalls : List ForcedWallPlacement
  requiredDoorEdges : List WallEdge
  bEnableProceduralDoors : Bool
  minProceduralDoors : Int
  maxProceduralDoors : Int
  generationSeed : Nat
deriving DecidableEq, Repr

/-- One emitted instance: which mesh and which world transform. -/
structure Placement where
  mesh : MeshData
  transform : Transform
deriving DecidableEq, Repr

/-- FWallSegmentInfo: a placed base-wall segment as tracked for Middle/Top
spawning. -/
structure WallSegmentInfo where
  edge : WallEdge
  startCell : Int
  segmentLength : Int
  baseTransform : Transform
  baseMesh : MeshData
  wallModule : WallModule
deriving DecidableEq, Repr

/-! ## Grid primitives (InternalGridState as a flat array indexed by y*W+x) -/

/-- Flat index of an interior cell (x, y). -/
def idxZ (W : Nat) (c : Int × Int) : Int := c.2 * (W : Int) + c.1

/-- Read a grid cell; out-of-range reads yield Empty (they are only ever
performed behind IsValidIndex-style guards in the source). -/
def cellGet (g : List CellType) (i : Int) : CellType :=
  if 0 ≤ i then g.getD i.toNat CellType.ECT_Empty else CellType.ECT_Empty

/-- Write a grid cell; out-of-range writes are dropped, matching the
IsValidIndex guard around every write in the source. -/
def cellSet (g : List CellType) (i : Int) (v : CellType) : List CellType :=
  if 0 ≤ i then g.set i.toNat v else g

/-- The check InternalGridState.IsValidIndex(i) && InternalGridState[i] !=
ECT_Empty. -/
def cellBlocked (g : List CellType) (i : Int) : Bool :=
  decide (0 ≤ i) && decide (i < (g.length : Int)) &&
    decide (cellGet g i ≠ CellType.ECT_Empty)

/-- The footprint cells covered from (x0, y0), FootY outer and FootX inner,
exactly as the source's double loops enumerate them. -/
def rectCellList (x0 y0 fw fh : Int) : List (Int × Int) :=
  (List.range fh.toNat).flatMap fun (fy : Nat) =>
    (List.range fw.toNat).map fun (fx : Nat) => (x0 + (fx : Int), y0 + (fy : Int))

/-- Mark every cell of a footprint as ECT_FloorMesh. -/
def markCells (W : Nat) (g : List CellType) (cells : List (Int × Int)) : List CellType :=
  cells.foldl (fun g c => cellSet g (idxZ W c) CellType.ECT_FloorMesh) g

/-- The overlap check: no footprint cell may be valid-and-occupied. -/
def cellsFree (W : Nat) (g : List CellType) (cells : List (Int × Int)) : Bool :=
  cells.all fun c => !cellBlocked g (idxZ W c)

/-! ## Weighted selector (SelectWeightedMesh) -/

/-- Total weight of a pool. -/
def sumWeights (pool : List MeshPlacementInfo) : ℚ :=
  pool.foldl (fun acc m => acc + m.placementWeight) 0

/-- The accumulation walk of SelectWeightedMesh: first entry whose running
cumulative weight reaches the drawn point. -/
def weightedWalk (r : ℚ) : List MeshPlacementInfo → ℚ → Option MeshPlacementInfo
  | [], _ => none
  | m :: rest, cur =>
    if r ≤ cur + m.placementWeight then some m
    else weightedWalk r rest (cur + m.placementWeight)

/-- AMasterRoom::SelectWeightedMesh. -/
def selectWeightedMesh (pool : List MeshPlacementInfo) (s : FRandomStream) :
    Option MeshPlacementInfo × FRandomStream :=
  if pool.length = 0 then (none, s)
  else
    let total := sumWeights pool
    if total ≤ 0 then
      let p := s.randRange 0 ((pool.length : Int) - 1)
      (some (pool.getD p.1.toNat default), p.2)
    else
      let p := s.frand
      let r := p.1 * total
      (match weightedWalk r pool 0 with
       | some m => some m
       | none => pool.getLast?, p.2)

/-! ## Region expansion (ExpandForcedEmptyRegions) -/

/-- FMath::Clamp. -/
def clampInt (v lo hi : Int) : Int := min (max v lo) hi

/-- TArray::AddUnique. -/
def addUnique (acc : List (Int × Int)) (c : Int × Int) : List (Int × Int) :=
  if c ∈ acc then acc else acc ++ [c]

/-- The inclusive integer range [lo, hi]. -/
def intRangeIncl (lo hi : Int) : List Int :=
  (List.range (hi - lo + 1).toNat).map fun (k : Nat) => lo + (k : Int)

/-- Expansion of one rectangular forced-empty region (corner order
normalised, clamped to the grid) into individual cells, deduplicated. -/
def expandRegion (W H : Nat) (acc : List (Int × Int)) (rg : ForcedEmptyRegion) :
    List (Int × Int) :=
  let minX := clampInt (min rg.startCell.1 rg.endCell.1) 0 ((W : Int) - 1)
  let maxX := clampInt (max rg.startCell.1 rg.endCell.1) 0 ((W : Int) - 1)
  let minY := clampInt (min rg.startCell.2 rg.endCell.2) 0 ((H : Int) - 1)
  let maxY := clampInt (max rg.startCell.2 rg.endCell.2) 0 ((H : Int) - 1)
  (intRangeIncl minY maxY).foldl
    (fun acc y => (intRangeIncl minX maxX).foldl (fun acc x => addUnique acc (x, y)) acc)
    acc

/-- An individual forced-empty cell, added only when inside the grid. -/
def addCellChecked (W H : Nat) (acc : List (Int × Int)) (c : Int × Int) :
    List (Int × Int) :=
  if 0 ≤ c.1 ∧ c.1 < (W : Int) ∧ 0 ≤ c.2 ∧ c.2 < (H : Int) then addUnique acc c else acc

/-- AMasterRoom::ExpandForcedEmptyRegions: shape preset first, then manual
regions, then manual cells. -/
def expandForcedEmptyRegions (cfg : MasterRoomCfg) : List (Int × Int) :=
  let acc1 :=
    match cfg.shapePreset with
    | none => []
    | some sp =>
      let a := sp.emptyRegions.foldl (expandRegion cfg.gridW cfg.gridH) []
      sp.emptyCells.foldl (addCellChecked cfg.gridW cfg.gridH) a
  let acc2 := cfg.forcedEmptyRegions.foldl (expandRegion cfg.gridW cfg.gridH) acc1
  cfg.forcedEmptyFloorCells.foldl (addCellChecked cfg.gridW cfg.gridH) acc2

/-! ## Interior packer (ExecuteForcedPlacements, GenerateFloorAndInterior) -/

/-- A footprint rectangle on the interior grid: cells [x, x+w) x [y, y+h). -/
structure Rect where
  x : Int
  y : Int
  w : Int
  h : Int
deriving DecidableEq, Repr

/-- State threaded through the interior passes; rects is the trace of every
footprint whose cells a placement marked (one per emitted instance). -/
structure InteriorState where
  grid : List CellType
  stream : FRandomStream
  placements : List Placement
  rects : List Rect
deriving Repr

/-- Roll a rotation from the allowed set. -/
def rollRotation (info : MeshPlacementInfo) (s : FRandomStream) : Int × FRandomStream :=
  let p := s.randRange 0 ((info.allowedRotations.length : Int) - 1)
  (info.allowedRotations.getD p.1.toNat 0, p.2)

/-- Footprint after the rolled yaw: 90 or 270 swap the axes. -/
def rotatedFootprint (info : MeshPlacementInfo) (yaw : Int) : Int × Int :=
  if yaw = 90 ∨ yaw = 270 then (info.gridFootprintY, info.gridFootprintX)
  else (info.gridFootprintX, info.gridFootprintY)

/-- Transform of an interior placement: centered on the rotated footprint,
yaw-only rotation. -/
def interiorTransform (sx sy fw fh yaw : Int) : Transform :=
  Transform.mk (Rot.rotator 0 (yaw : ℚ) 0)
    ⟨((sx : ℚ) + (fw : ℚ) / 2) * CELL_SIZE, ((sy : ℚ) + (fh : ℚ) / 2) * CELL_SIZE, 0⟩

/-- Processing of one designer-forced interior placement: load the mesh,
roll a rotation, bounds-check, overlap-check and only then mark and emit. -/
def forcedPlacementStep (cfg : MasterRoomCfg) (st : InteriorState)
    (entry : (Int × Int) × MeshPlacementInfo) : InteriorState :=
  let sx := entry.1.1
  let sy := entry.1.2
  let info := entry.2
  match info.meshAsset with
  | none => st
  | some mesh =>
    let rp := rollRotation info st.stream
    let fp := rotatedFootprint info rp.1
    let cells := rectCellList sx sy fp.1 fp.2
    let boundsOk : Bool :=
      !(decide (sx < 0) || decide (sy < 0) ||
        decide ((cfg.gridW : Int) < sx + fp.1) || decide ((cfg.gridH : Int) < sy + fp.2))
    if boundsOk && cellsFree cfg.gridW st.grid cells then
      { grid := markCells cfg.gridW st.grid cells
        stream := rp.2
        placements := st.placements ++ [⟨mesh, interiorTransform sx sy fp.1 fp.2 rp.1⟩]
        rects := st.rects ++ [⟨sx, sy, fp.1, fp.2⟩] }
    else
      { st with stream := rp.2 }

/-- AMasterRoom::ExecuteForcedPlacements. -/
def executeForcedPlacements (cfg : MasterRoomCfg) (st : InteriorState) : InteriorState :=
  cfg.forcedInteriorPlacements.foldl (forcedPlacementStep cfg) st

/-- Marking of the expanded forced-empty cells: still-Empty valid cells
become ECT_Wall (a reserved-slot sentinel). -/
def markForcedEmptyCells (cfg : MasterRoomCfg) (st : InteriorState) : InteriorState :=
  { st with
    grid :=
      (expandForcedEmptyRegions cfg).foldl
        (fun g c =>
          let i := idxZ cfg.gridW c
          if 0 ≤ i ∧ i < (g.length : Int) ∧ cellGet g i = CellType.ECT_Empty then
            cellSet g i CellType.ECT_Wall
          else g)
        st.grid }

/-- Row-major cell visit order of the interior scans: y outer, x inner. -/
def cellList (W H : Nat) : List (Nat × Nat) :=
  (List.range H).flatMap fun y => (List.range W).map fun x => (y, x)

/-- Pass 1 of GenerateFloorAndInterior at one cell: skip occupied cells,
weighted-select a mesh, roll a rotation, bounds- and overlap-check, then
mark and emit. -/
def floorScanStep (cfg : MasterRoomCfg) (fd : FloorData) (st : InteriorState)
    (c : Nat × Nat) : InteriorState :=
  let y := c.1
  let x := c.2
  let i : Int := (y : Int) * (cfg.gridW : Int) + (x : Int)
  if cellGet st.grid i ≠ CellType.ECT_Empty then st
  else
    let sel := selectWeightedMesh fd.floorTilePool st.stream
    match sel.1 with
    | none => { st with stream := sel.2 }
    | some info =>
      match info.meshAsset with
      | none => { st with stream := sel.2 }
      | some mesh =>
        let rp := rollRotation info sel.2
        let fp := rotatedFootprint info rp.1
        let cells := rectCellList (x : Int) (y : Int) fp.1 fp.2
        let boundsOk : Bool :=
          !(decide ((cfg.gridW : Int) < (x : Int) + fp.1) ||
            decide ((cfg.gridH : Int) < (y : Int) + fp.2))
        if boundsOk && cellsFree cfg.gridW st.grid cells then
          { grid := markCells cfg.gridW st.grid cells
            stream := rp.2
            placements := st.placements ++ [⟨mesh, interiorTransform x y fp.1 fp.2 rp.1⟩]
            rects := st.rects ++ [⟨x, y, fp.1, fp.2⟩] }
        else
          { st with stream := rp.2 }

/-- Pass 2 of GenerateFloorAndInterior at one cell: any still-Empty cell
receives the 1x1 filler tile at the cell center with zero rotation. -/
def gapFillStep (cfg : MasterRoomCfg) (filler : MeshData) (st : InteriorState)
    (c : Nat × Nat) : InteriorState :=
  let y := c.1
  let x := c.2
  let i : Int := (y : Int) * (cfg.gridW : Int) + (x : Int)
  if cellGet st.grid i = CellType.ECT_Empty then
    { grid := cellSet st.grid i CellType.ECT_FloorMesh
      stream := st.stream
      placements := st.placements ++
        [⟨filler, Transform.mk Rot.zero
            ⟨((x : ℚ) + 1 / 2) * CELL_SIZE, ((y : ℚ) + 1 / 2) * CELL_SIZE, 0⟩⟩]
      rects := st.rects ++ [⟨x, y, 1, 1⟩] }
  else st

/-- AMasterRoom::GenerateFloorAndInterior, on the freshly reset grid: forced
placements, forced-empty marking, weighted row-major scan, gap fill. -/
def generateFloorAndInterior (cfg : MasterRoomCfg) : InteriorState :=
  let st0 : InteriorState :=
    ⟨List.replicate (cfg.gridW * cfg.gridH) CellType.ECT_Empty,
     mkStream cfg.generationSeed, [], []⟩
  match cfg.floorData with
  | none => st0
  | some fd =>
    let st1 := executeForcedPlacements cfg st0
    let st2 := markForcedEmptyCells cfg st1
    let st3 := (cellList cfg.gridW cfg.gridH).foldl (floorScanStep cfg fd) st2
    match fd.defaultFillerTile with
    | none => st3
    | some filler => (cellList cfg.gridW cfg.gridH).foldl (gapFillStep cfg filler) st3

/-! ## Wall and door layout engine (GenerateWallsAndDoors and helpers) -/

/-- AMasterRoom::GetCellsForEdge: virtual boundary cells one unit outside
the interior grid (North = +X at X = W, South at X = -1, East = +Y at
Y = H, West at Y = -1). -/
def getCellsForEdge (cfg : MasterRoomCfg) : WallEdge → List (Int × Int)
  | WallEdge.North => (List.range cfg.gridH).map fun (y : Nat) => ((cfg.gridW : Int), (y : Int))
  | WallEdge.South => (List.range cfg.gridH).map fun (y : Nat) => (-1, (y : Int))
  | WallEdge.East => (List.range cfg.gridW).map fun (x : Nat) => ((x : Int), (cfg.gridH : Int))
  | WallEdge.West => (List.range cfg.gridW).map fun (x : Nat) => ((x : Int), -1)

/-- AMasterRoom::GetWallRotationForEdge. -/
def getWallRotationForEdge : WallEdge → Rot
  | WallEdge.East => Rot.rotator 0 270 0
  | WallEdge.West => Rot.rotator 0 90 0
  | WallEdge.North => Rot.rotator 0 180 0
  | WallEdge.South => Rot.rotator 0 0 0

/-- AMasterRoom::CalculateNorthSouthWallPosition. -/
def calculateNorthSouthWallPosition (cfg : MasterRoomCfg) (wd : WallData)
    (x startY : Int) (wallMeshLength : ℚ) (isNorthWall : Bool) : Vec3 :=
  let basePosition := cfg.actorLocation + ⟨(x : ℚ) * CELL_SIZE, (startY : ℚ) * CELL_SIZE, 0⟩
  let halfLength := wallMeshLength / 2
  if isNorthWall then basePosition + ⟨wd.northWallOffsetX, halfLength, 0⟩
  else basePosition + ⟨CELL_SIZE + wd.southWallOffsetX, halfLength, 0⟩

/-- AMasterRoom::CalculateEastWestWallPosition. -/
def calculateEastWestWallPosition (cfg : MasterRoomCfg) (wd : WallData)
    (startX y : Int) (wallMeshLength : ℚ) (isEastWall : Bool) : Vec3 :=
  let basePosition := cfg.actorLocation + ⟨(startX : ℚ) * CELL_SIZE, (y : ℚ) * CELL_SIZE, 0⟩
  let halfLength := wallMeshLength / 2
  if isEastWall then basePosition + ⟨halfLength, wd.eastWallOffsetY, 0⟩
  else basePosition + ⟨halfLength, CELL_SIZE + wd.westWallOffsetY, 0⟩

/-- AMasterRoom::CalculateDoorPosition: doors anchor to interior cells, the
DoorWidth argument is unused by the source. -/
def calculateDoorPosition (cfg : MasterRoomCfg) (e : WallEdge) (startCell : Int) : Vec3 :=
  let a := cfg.actorLocation
  match e with
  | WallEdge.North =>
    a + ⟨((cfg.gridW : ℚ) - 1) * CELL_SIZE, (startCell : ℚ) * CELL_SIZE, 0⟩ +
      ⟨CELL_SIZE / 2, CELL_SIZE / 2, 0⟩
  | WallEdge.South =>
    a + ⟨0, (startCell : ℚ) * CELL_SIZE, 0⟩ + ⟨CELL_SIZE / 2, CELL_SIZE / 2, 0⟩
  | WallEdge.East =>
    a + ⟨(startCell : ℚ) * CELL_SIZE, ((cfg.gridH : ℚ) - 1) * CELL_SIZE, 0⟩ +
      ⟨CELL_SIZE / 2, CELL_SIZE / 2, 0⟩
  | WallEdge.West =>
    a + ⟨(startCell : ℚ) * CELL_SIZE, 0, 0⟩ + ⟨CELL_SIZE / 2, CELL_SIZE / 2, 0⟩

/-- The inner selection of FillWallSegment: the largest module whose
footprint fits the remaining length, first in catalog order on ties. -/
def findBestWallModule (mods : List WallModule) (rem : Int) : Option WallModule :=
  mods.foldl
    (fun best m =>
      if m.yAxisFootprint ≤ rem then
        match best with
        | none => some m
        | some b => if b.yAxisFootprint < m.yAxisFootprint then some m else best
      else best)
    none

/-- The packing loop of FillWallSegment.  The source's while loop does not
terminate if the selected module has a nonpositive footprint; the fuel
argument (strictly more than the segment length) never runs out on any
catalog whose selected footprints are positive. -/
def fillWallSegmentLoop (cfg : MasterRoomCfg) (wd : WallData) (edge : WallEdge)
    (edgeCells : List (Int × Int)) (rot : Rot) (isNorthWall isEastWall : Bool) :
    Nat → Int → Int → List Placement × List WallSegmentInfo
  | 0, _, _ => ([], [])
  | fuel + 1, rem, cur =>
    if rem ≤ 0 then ([], [])
    else
      match findBestWallModule wd.availableWallModules rem with
      | none => ([], [])
      | some best =>
        match best.baseMesh with
        | none => ([], [])
        | some baseMesh =>
          let wallMeshLength := (best.yAxisFootprint : ℚ) * CELL_SIZE
          let cc := edgeCells.getD cur.toNat (0, 0)
          let pos :=
            if isNorthWall || decide (edge = WallEdge.South) then
              calculateNorthSouthWallPosition cfg wd cc.1 cc.2 wallMeshLength isNorthWall
            else
              calculateEastWestWallPosition cfg wd cc.1 cc.2 wallMeshLength isEastWall
          let tf := Transform.mk rot pos
          let seg : WallSegmentInfo :=
            ⟨edge, cur, best.yAxisFootprint, tf, baseMesh, best⟩
          let rest := fillWallSegmentLoop cfg wd edge edgeCells rot isNorthWall isEastWall
            fuel (rem - best.yAxisFootprint) (cur + best.yAxisFootprint)
          (⟨baseMesh, tf⟩ :: rest.1, seg :: rest.2)

/-- AMasterRoom::FillWallSegment. -/
def fillWallSegment (cfg : MasterRoomCfg) (edge : WallEdge) (segStart segLen : Int) :
    List Placement × List WallSegmentInfo :=
  match cfg.wallData with
  | none => ([], [])
  | some wd =>
    if wd.availableWallModules.length = 0 then ([], [])
    else
      let edgeCells := getCellsForEdge cfg edge
      if edgeCells.length = 0 ∨ segStart < 0 ∨ (edgeCells.length : Int) ≤ segStart then
        ([], [])
      else
        fillWallSegmentLoop cfg wd edge edgeCells (getWallRotationForEdge edge)
          (decide (edge = WallEdge.North)) (decide (edge = WallEdge.East))
          (segLen.toNat + 1) segLen segStart

/-- The per-run OccupancyGrid: boundary-ring coordinate to cell state. -/
def OccGrid : Type := List ((Int × Int) × CellType)

/-- TMap::Contains. -/
def occContains (g : OccGrid) (c : Int × Int) : Bool :=
  (g : List ((Int × Int) × CellType)).any fun p => decide (p.1 = c)

/-- TMap::Add. -/
def occAdd (g : OccGrid) (c : Int × Int) (v : CellType) : OccGrid :=
  ((c, v) :: g : List ((Int × Int) × CellType))

/-- AMasterRoom::PlaceForcedWalls, one entry: load the base mesh, validate
the cell range, check occupancy, then place and mark. -/
def placeForcedWallStep (cfg : MasterRoomCfg) (wd : WallData)
    (st : OccGrid × List WallSegmentInfo × List Placement)
    (f : ForcedWallPlacement) : OccGrid × List WallSegmentInfo × List Placement :=
  let module := f.wallModule
  match module.baseMesh with
  | none => st
  | some baseMesh =>
    let edgeCells := getCellsForEdge cfg f.edge
    if edgeCells.length = 0 then st
    else
      let fp := module.yAxisFootprint
      if f.startCell < 0 ∨ (edgeCells.length : Int) < f.startCell + fp then st
      else
        let occupied := (List.range fp.toNat).any fun (j : Nat) =>
          occContains st.1 (edgeCells.getD (f.startCell + (j : Int)).toNat (0, 0))
        if occupied then st
        else
          let wallLength := (fp : ℚ) * CELL_SIZE
          let cc := edgeCells.getD f.startCell.toNat (0, 0)
          let isNorthWall := decide (f.edge = WallEdge.North)
          let isEastWall := decide (f.edge = WallEdge.East)
          let pos :=
            if f.edge = WallEdge.North ∨ f.edge = WallEdge.South then
              calculateNorthSouthWallPosition cfg wd cc.1 cc.2 wallLength isNorthWall
            else
              calculateEastWestWallPosition cfg wd cc.1 cc.2 wallLength isEastWall
          let tf := Transform.mk (getWallRotationForEdge f.edge) pos
          let occ2 := (List.range fp.toNat).foldl
            (fun g (j : Nat) => occAdd g (edgeCells.getD (f.startCell + (j : Int)).toNat (0, 0))
              CellType.ECT_Wall)
            st.1
          (occ2,
           st.2.1 ++ [⟨f.edge, f.startCell, fp, tf, baseMesh, module⟩],
           st.2.2 ++ [⟨baseMesh, tf⟩])

/-- AMasterRoom::PlaceForcedWalls. -/
def placeForcedWalls (cfg : MasterRoomCfg) (wd : WallData) :
    OccGrid × List WallSegmentInfo × List Placement :=
  cfg.forcedWalls.foldl (placeForcedWallStep cfg wd) (([] : List ((Int × Int) × CellType)), [], [])

/-! ## Door resolution (GetValidDoorLocations, PlaceProceduralDoors) -/

/-- EdgeSize as GetValidDoorLocations computes it. -/
def edgeSizeOf (cfg : MasterRoomCfg) (e : WallEdge) : Int :=
  if e = WallEdge.North ∨ e = WallEdge.South then (cfg.gridH : Int) else (cfg.gridW : Int)

/-- The half-open cell interval (StartCell, StartCell + footprint) of every
fixed door on an edge, in list order. -/
def doorRangesOnEdge (doors : List FixedDoorLocation) (e : WallEdge) : List (Int × Int) :=
  doors.filterMap fun d =>
    match d.doorData with
    | some spec =>
      if d.wallEdge = e then some (d.startCell, d.startCell + max 1 spec.frameFootprintY)
      else none
    | none => none

/-- Left-to-right gap scan over the sorted occupied ranges. -/
def scanGaps (edgeSize : Int) : Int → List (Int × Int) → List (Int × Int)
  | cur, [] => if cur < edgeSize then [(cur, edgeSize - cur)] else []
  | cur, r :: rest =>
    (if cur < r.1 then [(cur, r.1 - cur)] else []) ++ scanGaps edgeSize r.2 rest

/-- Ordering of occupied ranges by start cell (the sort predicate of
GetValidDoorLocations). -/
def rangeKeyLE (a b : Int × Int) : Prop := a.1 ≤ b.1

instance : DecidableRel rangeKeyLE := fun a b => Int.decLe a.1 b.1

instance : IsTotal (Int × Int) rangeKeyLE := ⟨fun a b => Int.le_total a.1 b.1⟩

instance : IsTrans (Int × Int) rangeKeyLE := ⟨fun _ _ _ h1 h2 => le_trans h1 h2⟩

/-- AMasterRoom::GetValidDoorLocations: the (start, size) gaps left on an
edge by the existing fixed doors. -/
def getValidDoorLocations (cfg : MasterRoomCfg) (doors : List FixedDoorLocation)
    (e : WallEdge) : List (Int × Int) :=
  scanGaps (edgeSizeOf cfg e) 0 (List.insertionSort rangeKeyLE (doorRangesOnEdge doors e))

/-- Total weight of the non-null DoorStylePool entries. -/
def sumDoorWeights (pool : List (Option DoorSpec)) : ℚ :=
  pool.foldl
    (fun acc d => match d with | some sp => acc + sp.placementWeight | none => acc) 0

/-- The cumulative walk of SelectRandomDoorFromPool (null entries are
skipped without contributing weight). -/
def doorWalk (r : ℚ) : List (Option DoorSpec) → ℚ → Option DoorSpec
  | [], _ => none
  | none :: rest, cur => doorWalk r rest cur
  | some sp :: rest, cur =>
    if r ≤ cur + sp.placementWeight then some sp else doorWalk r rest (cur + sp.placementWeight)

/-- AMasterRoom::SelectRandomDoorFromPool. -/
def selectRandomDoorFromPool (cfg : MasterRoomCfg) (s : FRandomStream) :
    Option DoorSpec × FRandomStream :=
  match cfg.doorStyleData with
  | none => (none, s)
  | some dd =>
    if dd.doorStylePool.length = 0 then (some dd.base, s)
    else
      let total := sumDoorWeights dd.doorStylePool
      if total ≤ 0 then
        let p := s.randRange 0 ((dd.doorStylePool.length : Int) - 1)
        (dd.doorStylePool.getD p.1.toNat none, p.2)
      else
        let p := s.frandRange 0 total
        (match doorWalk p.1 dd.doorStylePool 0 with
         | some sp => some sp
         | none => dd.doorStylePool.getD 0 none, p.2)

/-- The bounded retry loop of PlaceProceduralDoors: up to MaxAttempts
weighted draws, keeping the first door whose footprint fits the gap. -/
def doorAttemptLoop (cfg : MasterRoomCfg) (gapSize : Int) :
    Nat → FRandomStream → Option DoorSpec × FRandomStream
  | 0, s => (none, s)
  | n + 1, s =>
    let p := selectRandomDoorFromPool cfg s
    match p.1 with
    | some cand =>
      if max 1 cand.frameFootprintY ≤ gapSize then (some cand, p.2)
      else doorAttemptLoop cfg gapSize n p.2
    | none => doorAttemptLoop cfg gapSize n p.2

/-- One edge of PlaceProceduralDoors: pick a random gap, find a fitting
door, pick a random offset inside the gap, append the new fixed door. -/
def proceduralEdgeStep (cfg : MasterRoomCfg)
    (acc : List FixedDoorLocation × FRandomStream) (e : WallEdge) :
    List FixedDoorLocation × FRandomStream :=
  let gaps := getValidDoorLocations cfg acc.1 e
  if gaps.length = 0 then acc
  else
    let p1 := acc.2.randRange 0 ((gaps.length : Int) - 1)
    let gap := gaps.getD p1.1.toNat (0, 0)
    let p2 := doorAttemptLoop cfg gap.2 10 p1.2
    match p2.1 with
    | none => (acc.1, p2.2)
    | some sel =>
      let fp := max 1 sel.frameFootprintY
      let maxOffset := gap.2 - fp
      let p3 := if 0 < maxOffset then p2.2.randRange 0 maxOffset else (0, p2.2)
      (acc.1 ++ [⟨e, gap.1 + p3.1, some sel, ⟨⟨0, 0, 0⟩, ⟨0, 0, 0⟩⟩⟩], p3.2)

/-- One Fisher-Yates swap (index i with a random index in [0, i]). -/
def fyShuffleStep (acc : List WallEdge × FRandomStream) (i : Nat) :
    List WallEdge × FRandomStream :=
  let p := acc.2.randRange 0 (i : Int)
  let j := p.1.toNat
  let li := acc.1.getD i WallEdge.North
  let lj := acc.1.getD j WallEdge.North
  ((acc.1.set i lj).set j li, p.2)

/-- AMasterRoom::PlaceProceduralDoors: required edges verbatim, or a random
number of edges from a Fisher-Yates shuffle, then one door attempt per
listed edge. -/
def placeProceduralDoors (cfg : MasterRoomCfg) (doorsIn : List FixedDoorLocation)
    (s : FRandomStream) : List FixedDoorLocation × FRandomStream :=
  match cfg.doorStyleData with
  | none => (doorsIn, s)
  | some _ =>
    let ep :=
      if 0 < cfg.requiredDoorEdges.length then (cfg.requiredDoorEdges, s)
      else
        let pn := s.randRange cfg.minProceduralDoors cfg.maxProceduralDoors
        let sh := [3, 2, 1].foldl fyShuffleStep
          ([WallEdge.North, WallEdge.South, WallEdge.East, WallEdge.West], pn.2)
        (sh.1.take pn.1.toNat, sh.2)
    ep.1.foldl (proceduralEdgeStep cfg) (doorsIn, ep.2)

/-! ## Per-edge processing (door marking, segment discovery, packing) -/

/-- Marking of one door-covered boundary cell: flip the local occupancy
flag and record the Doorway in the OccupancyGrid, both behind the index
guard. -/
def doorMarkStep (edgeCells : List (Int × Int)) (acc : List Bool × OccGrid) (ci : Int) :
    List Bool × OccGrid :=
  if 0 ≤ ci ∧ ci < (acc.1.length : Int) then
    (acc.1.set ci.toNat true, occAdd acc.2 (edgeCells.getD ci.toNat (0, 0)) CellType.ECT_Doorway)
  else acc

/-- Pass 1 of an edge for one FixedDoorLocation: emit the complete frame
mesh (when it resolves) at the span midpoint, then mark the covered cells. -/
def edgeDoorStep (cfg : MasterRoomCfg) (e : WallEdge) (edgeCells : List (Int × Int))
    (st : List Bool × OccGrid × List Placement) (d : FixedDoorLocation) :
    List Bool × OccGrid × List Placement :=
  match d.doorData with
  | none => st
  | some spec =>
    if d.wallEdge ≠ e then st
    else
      let fp := max 1 spec.frameFootprintY
      let pls2 :=
        match spec.frameSideMesh with
        | none => st.2.2
        | some mesh =>
          let rot := Rot.radd (getWallRotationForEdge e) spec.frameRotationOffset
          let middleCell := ratTrunc ((d.startCell : ℚ) + (fp : ℚ) / 2)
          let pos := calculateDoorPosition cfg e middleCell +
            d.doorPositionOffsets.framePositionOffset
          st.2.2 ++ [⟨mesh, Transform.mk rot pos⟩]
      let idxs := ((List.range fp.toNat).filter
        fun (i : Nat) => decide (d.startCell + (i : Int) < (edgeCells.length : Int))).map
        fun (i : Nat) => d.startCell + (i : Int)
      let m := idxs.foldl (doorMarkStep edgeCells) (st.1, st.2.1)
      (m.1, m.2, pls2)

/-- Segment discovery: maximal runs of unoccupied boundary cells, as
(start, length) pairs in scan order. -/
def findSegments (occ : List Bool) : List (Nat × Nat) :=
  let f := occ.foldl
    (fun (acc : List (Nat × Nat) × Option Nat × Nat) b =>
      if b then
        match acc.2.1 with
        | some st => (acc.1 ++ [(st, acc.2.2 - st)], none, acc.2.2 + 1)
        | none => (acc.1, none, acc.2.2 + 1)
      else
        match acc.2.1 with
        | some _ => (acc.1, acc.2.1, acc.2.2 + 1)
        | none => (acc.1, some acc.2.2, acc.2.2 + 1))
    ([], none, 0)
  match f.2.1 with
  | some st => f.1 ++ [(st, occ.length - st)]
  | none => f.1

/-- State threaded through the four-edge loop of GenerateWallsAndDoors.
segTrace records every (edge, start, length) segment handed to
FillWallSegment. -/
structure WallsState where
  occ : OccGrid
  baseWalls : List WallSegmentInfo
  pls : List Placement
  segTrace : List (WallEdge × Nat × Nat)

/-- One edge of GenerateWallsAndDoors: occupancy from forced walls, door
pass, segment discovery, greedy packing of each segment. -/
def processEdge (cfg : MasterRoomCfg) (doors : List FixedDoorLocation)
    (st : WallsState) (e : WallEdge) : WallsState :=
  let edgeCells := getCellsForEdge cfg e
  if edgeCells.length = 0 then st
  else
    let cellOcc0 := edgeCells.map fun c => occContains st.occ c
    let dres := doors.foldl (edgeDoorStep cfg e edgeCells) (cellOcc0, st.occ, st.pls)
    let segs := findSegments dres.1
    let fres := segs.foldl
      (fun (acc : List Placement × List WallSegmentInfo) sg =>
        let r := fillWallSegment cfg e (sg.1 : Int) (sg.2 : Int)
        (acc.1 ++ r.1, acc.2 ++ r.2))
      ([], [])
    { occ := dres.2.1
      baseWalls := st.baseWalls ++ fres.2
      pls := dres.2.2 ++ fres.1
      segTrace := st.segTrace ++ segs.map fun sg => (e, sg) }

/-! ## Vertical layer compositor (SpawnMiddleWalls, SpawnTopWalls) -/

/-- The attachment transform read from a Base mesh: its TopBackCenter
socket, or the fixed 100-unit fallback. -/
def baseAttach (mesh : MeshData) : Transform :=
  match mesh.socketTopBackCenter with
  | some sr => Transform.mk sr.2 sr.1
  | none => Transform.mk Rot.zero ⟨0, 0, 100⟩

/-- The attachment transform read from a Middle mesh: its TopBackCenter
socket, or the bounding-box-height fallback. -/
def middleAttach (mesh : MeshData) : Transform :=
  match mesh.socketTopBackCenter with
  | some sr => Transform.mk sr.2 sr.1
  | none => Transform.mk Rot.zero ⟨0, 0, mesh.boundsExtentZ * 2⟩

/-- SpawnMiddleWalls for one placed base segment: Middle1 chained on Base
when it resolves, then Middle2 chained on Middle1 when that also resolves. -/
def middleForSegment (seg : WallSegmentInfo) : List Placement :=
  match seg.wallModule.middle1Mesh with
  | none => []
  | some m1 =>
    let m1World := Transform.comp (baseAttach seg.baseMesh) seg.baseTransform
    match seg.wallModule.middle2Mesh with
    | none => [⟨m1, m1World⟩]
    | some m2 => [⟨m1, m1World⟩, ⟨m2, Transform.comp (middleAttach m1) m1World⟩]

/-- AMasterRoom::SpawnMiddleWalls. -/
def spawnMiddleWalls (ws : List WallSegmentInfo) : List Placement :=
  ws.flatMap middleForSegment

/-- SpawnTopWalls for one placed base segment: Top chained on the topmost
present layer (Middle2 when Middle1 and Middle2 both resolve, else Middle1
when it resolves, else Base). -/
def topForSegment (seg : WallSegmentInfo) : List Placement :=
  match seg.wallModule.topMesh with
  | none => []
  | some top =>
    match seg.wallModule.middle2Mesh, seg.wallModule.middle1Mesh with
    | some m2, some m1 =>
      let m1World := Transform.comp (baseAttach seg.baseMesh) seg.baseTransform
      let m2World := Transform.comp (middleAttach m1) m1World
      [⟨top, Transform.comp (middleAttach m2) m2World⟩]
    | none, some m1 =>
      [⟨top, Transform.comp (middleAttach m1)
          (Transform.comp (baseAttach seg.baseMesh) seg.baseTransform)⟩]
    | _, none =>
      [⟨top, Transform.comp (baseAttach seg.baseMesh) seg.baseTransform⟩]

/-- AMasterRoom::SpawnTopWalls. -/
def spawnTopWalls (ws : List WallSegmentInfo) : List Placement :=
  ws.flatMap topForSegment

/-- AMasterRoom::SpawnCorners: four corner instances (identity rotation)
with the per-corner offsets, in SW, SE, NE, NW order. -/
def spawnCorners (cfg : MasterRoomCfg) (wd : WallData) : List Placement :=
  match wd.defaultCornerMesh with
  | none => []
  | some mesh =>
    let a := cfg.actorLocation
    let w := (cfg.gridW : ℚ) * CELL_SIZE
    let h := (cfg.gridH : ℚ) * CELL_SIZE
    [⟨mesh, Transform.mk Rot.zero (a + ⟨0, 0, 0⟩ + wd.southWestCornerOffset)⟩,
     ⟨mesh, Transform.mk Rot.zero (a + ⟨0, h, 0⟩ + wd.southEastCornerOffset)⟩,
     ⟨mesh, Transform.mk Rot.zero (a + ⟨w, h, 0⟩ + wd.northEastCornerOffset)⟩,
     ⟨mesh, Transform.mk Rot.zero (a + ⟨w, 0, 0⟩ + wd.northWestCornerOffset)⟩]

/-- The body of GenerateWallsAndDoors once WallData has resolved, taking
the fixed-door list it starts from (already cleared in procedural mode). -/
def wallsCore (cfg : MasterRoomCfg) (wd : WallData) (doors0 : List FixedDoorLocation) :
    List Placement × List FixedDoorLocation × List (WallEdge × Nat × Nat) :=
  let s0 := mkStream cfg.generationSeed
  let pd := if cfg.bEnableProceduralDoors then placeProceduralDoors cfg doors0 s0
            else (doors0, s0)
  let fwr := placeForcedWalls cfg wd
  let st0 : WallsState := ⟨fwr.1, fwr.2.1, fwr.2.2, []⟩
  let st1 := [WallEdge.North, WallEdge.South, WallEdge.East, WallEdge.West].foldl
    (processEdge cfg pd.1) st0
  (st1.pls ++ spawnMiddleWalls st1.baseWalls ++ spawnTopWalls st1.baseWalls ++
     spawnCorners cfg wd,
   pd.1, st1.segTrace)

/-- AMasterRoom::GenerateWallsAndDoors: procedural mode clears the caller's
fixed-door list before regenerating it; a missing WallData aborts the phase
leaving the list untouched. -/
def generateWallsAndDoors (cfg : MasterRoomCfg) (doorsIn : List FixedDoorLocation) :
    List Placement × List FixedDoorLocation × List (WallEdge × Nat × Nat) :=
  match cfg.wallData with
  | none => ([], doorsIn, [])
  | some wd => wallsCore cfg wd (if cfg.bEnableProceduralDoors then [] else doorsIn)

/-! ## Ceiling tiler (GenerateCeiling) -/

/-- Total weight of a ceiling tile pool. -/
def sumTileWeights (pool : List CeilingTile) : ℚ :=
  pool.foldl (fun acc t => acc + t.placementWeight) 0

/-- The cumulative selection walk of a ceiling pass: the first tile whose
running weight reaches the draw, then its (possibly unresolved) mesh. -/
def ceilingWalk (r : ℚ) : List CeilingTile → ℚ → Option (Option MeshData)
  | [], _ => none
  | t :: rest, cur =>
    if r ≤ cur + t.placementWeight then some t.mesh
    else ceilingWalk r rest (cur + t.placementWeight)

/-- The mesh the ceiling pass ends up with for one draw: none when the walk
selects nothing or the selected tile's mesh fails to resolve. -/
def ceilingSelect (pool : List CeilingTile) (r : ℚ) : Option MeshData :=
  match ceilingWalk r pool 0 with
  | some (some m) => some m
  | _ => none

/-- The ceiling occupancy test: out-of-grid counts as occupied. -/
def ceilCellOccupied (cfg : MasterRoomCfg) (occ : List Bool) (x y : Int) : Bool :=
  if x < 0 ∨ (cfg.gridW : Int) ≤ x ∨ y < 0 ∨ (cfg.gridH : Int) ≤ y then true
  else occ.getD (y * (cfg.gridW : Int) + x).toNat true

/-- Marking of a size x size ceiling block, clamped to the grid. -/
def ceilMark (cfg : MasterRoomCfg) (occ : List Bool) (sx sy : Nat) (size : Nat) :
    List Bool :=
  (List.range size).foldl
    (fun occ dx =>
      (List.range size).foldl
        (fun occ dy =>
          let x := sx + dx
          let y := sy + dy
          if x < cfg.gridW ∧ y < cfg.gridH then occ.set (y * cfg.gridW + x) true else occ)
        occ)
    occ

/-- Anchor coordinates of the stride-4 large-tile loop along one axis. -/
def largeAnchors (n : Nat) : List Nat :=
  (List.range n).filter fun x => x % 4 = 0 ∧ x + 4 ≤ n

/-- Pass 1 of GenerateCeiling at one anchor: place a weighted-selected
large tile when the 4x4 block is free, marking it occupied. -/
def ceilingLargeStep (cfg : MasterRoomCfg) (cd : CeilingData) (total : ℚ)
    (st : List Bool × FRandomStream × List Placement) (c : Nat × Nat) :
    List Bool × FRandomStream × List Placement :=
  let x := c.1
  let y := c.2
  let canPlace := !((List.range 4).any fun (dx : Nat) =>
    (List.range 4).any fun (dy : Nat) =>
      ceilCellOccupied cfg st.1 ((x : Int) + (dx : Int)) ((y : Int) + (dy : Int)))
  if canPlace then
    let p := st.2.1.frand
    match ceilingSelect cd.largeTilePool (p.1 * total) with
    | some mesh =>
      let pos := cfg.actorLocation +
        ⟨((x : ℚ) + 2) * CELL_SIZE, ((y : ℚ) + 2) * CELL_SIZE, cd.ceilingHeight⟩
      (ceilMark cfg st.1 x y 4, p.2,
       st.2.2 ++ [⟨mesh, Transform.mk cd.ceilingRotation pos⟩])
    | none => (st.1, p.2, st.2.2)
  else st

/-- Pass 2 of GenerateCeiling at one cell: fill a still-free cell with a
weighted-selected small tile. -/
def ceilingSmallStep (cfg : MasterRoomCfg) (cd : CeilingData) (total : ℚ)
    (st : List Bool × FRandomStream × List Placement) (c : Nat × Nat) :
    List Bool × FRandomStream × List Placement :=
  let x := c.1
  let y := c.2
  if !ceilCellOccupied cfg st.1 (x : Int) (y : Int) then
    let p := st.2.1.frand
    match ceilingSelect cd.smallTilePool (p.1 * total) with
    | some mesh =>
      let pos := cfg.actorLocation +
        ⟨((x : ℚ) + 1 / 2) * CELL_SIZE, ((y : ℚ) + 1 / 2) * CELL_SIZE, cd.ceilingHeight⟩
      (ceilMark cfg st.1 x y 1, p.2,
       st.2.2 ++ [⟨mesh, Transform.mk cd.ceilingRotation pos⟩])
    | none => (st.1, p.2, st.2.2)
  else st

/-- Ceiling cell visit order: x outer, y inner (both passes). -/
def ceilingCellList (W H : Nat) : List (Nat × Nat) :=
  (List.range W).flatMap fun x => (List.range H).map fun y => (x, y)

/-- AMasterRoom::GenerateCeiling: large 4x4 tiles on a stride-4 grid, then
1x1 small tiles on the remainder, each pass with its own seeded stream and
skipped entirely on an empty or weightless pool. -/
def generateCeiling (cfg : MasterRoomCfg) : List Placement :=
  match cfg.ceilingData with
  | none => []
  | some cd =>
    let occ0 := List.replicate (cfg.gridW * cfg.gridH) false
    let anchors := (largeAnchors cfg.gridW).flatMap fun x =>
      (largeAnchors cfg.gridH).map fun y => (x, y)
    let pass1 :=
      if 0 < cd.largeTilePool.length then
        let total := sumTileWeights cd.largeTilePool
        if 0 < total then
          let r := anchors.foldl (ceilingLargeStep cfg cd total)
            (occ0, mkStream cfg.generationSeed, [])
          (r.1, r.2.2)
        else (occ0, [])
      else (occ0, [])
    let pass2 :=
      if 0 < cd.smallTilePool.length then
        let total := sumTileWeights cd.smallTilePool
        if 0 < total then
          ((ceilingCellList cfg.gridW cfg.gridH).foldl (ceilingSmallStep cfg cd total)
            (pass1.1, mkStream (cfg.generationSeed + 1000), [])).2.2
        else []
      else []
    pass1.2 ++ pass2

/-! ## Full generation run (RegenerateRoom) -/

/-- AMasterRoom::RegenerateRoom on a present RoomData: reset the per-run
state, then floor and interior, walls and doors, ceiling.  Returns the
ordered placement list and the (possibly rewritten) fixed-door list. -/
def regenerateRoom (cfg : MasterRoomCfg) (doors : List FixedDoorLocation) :
    List Placement × List FixedDoorLocation :=
  let f := generateFloorAndInterior cfg
  let w := generateWallsAndDoors cfg doors
  let c := generateCeiling cfg
  (f.placements ++ w.1 ++ c, w.2.1)

/-! ## C1: determinism of a full generation run -/

theorem wallsCore_doors_of_not_proc (cfg : MasterRoomCfg) (wd : WallData)
    (d : List FixedDoorLocation) (h : cfg.bEnableProceduralDoors = false) :
    (wallsCore cfg wd d).2.1 = d := by
  unfold wallsCore
  simp [h]

theorem generateWallsAndDoors_idem (cfg : MasterRoomCfg) (doors : List FixedDoorLocation) :
    generateWallsAndDoors cfg (generateWallsAndDoors cfg doors).2.1 =
      generateWallsAndDoors cfg doors := by
  unfold generateWallsAndDoors
  cases h : cfg.wallData with
  | none => rfl
  | some wd =>
    by_cases hp : cfg.bEnableProceduralDoors
    · simp [hp]
    · simp only [Bool.not_eq_true] at hp
      simp only [hp, Bool.false_eq_true, if_false]
      rw [wallsCore_doors_of_not_proc cfg wd doors hp]

/-- C1.  A generation run is a pure function of the configuration (room
spec, style data, overrides, seed): re-running with identical arguments
reproduces the identical placement list (same meshes, same order, same
transforms) and the identical fixed-door list.  The statement covers the
procedural-door case, where the first run rewrites the caller's fixed-door
list: running again from that rewritten list — which is what a second call
with identical arguments observes — regenerates exactly the same
placements and doors, because the phase clears the list and replays the
same seeded stream. -/
theorem regenerateRoom_deterministic (cfg : MasterRoomCfg)
    (doors : List FixedDoorLocation) :
    regenerateRoom cfg (regenerateRoom cfg doors).2 = regenerateRoom cfg doors := by
  have key : generateWallsAndDoors cfg (regenerateRoom cfg doors).2 =
      generateWallsAndDoors cfg doors := by
    show generateWallsAndDoors cfg (generateWallsAndDoors cfg doors).2.1 = _
    exact generateWallsAndDoors_idem cfg doors
  show ((generateFloorAndInterior cfg).placements ++
      (generateWallsAndDoors cfg (regenerateRoom cfg doors).2).1 ++ generateCeiling cfg,
    (generateWallsAndDoors cfg (regenerateRoom cfg doors).2).2.1) = _
  rw [key]
  rfl

/-! ## Grid lemmas -/

theorem listGetD_set_eq {α : Type} (l : List α) (n : Nat) (v d : α) (h : n < l.length) :
    (l.set n v).getD n d = v := by
  induction l generalizing n with
  | nil => simp at h
  | cons a t ih =>
    cases n with
    | zero => rfl
    | succ k =>
      simp only [List.set, List.getD_cons_succ]
      exact ih k (by simpa using h)

theorem listGetD_set_ne {α : Type} (l : List α) (n m : Nat) (v d : α) (h : n ≠ m) :
    (l.set n v).getD m d = l.getD m d := by
  induction l generalizing n m with
  | nil => rfl
  | cons a t ih =>
    cases n with
    | zero =>
      cases m with
      | zero => exact absurd rfl h
      | succ j => rfl
    | succ k =>
      cases m with
      | zero => rfl
      | succ j =>
        simp only [List.set, List.getD_cons_succ]
        exact ih k j (by omega)

theorem cellSet_length (g : List CellType) (i : Int) (v : CellType) :
    (cellSet g i v).length = g.length := by
  unfold cellSet
  split
  · exact List.length_set ..
  · rfl

theorem cellGet_cellSet_eq (g : List CellType) (i : Int) (v : CellType)
    (h0 : 0 ≤ i) (hl : i < (g.length : Int)) :
    cellGet (cellSet g i v) i = v := by
  unfold cellGet cellSet
  rw [if_pos h0, if_pos h0]
  exact listGetD_set_eq g i.toNat v _ (by omega)

theorem cellGet_cellSet_ne (g : List CellType) (i j : Int) (v : CellType)
    (h : i ≠ j) : cellGet (cellSet g i v) j = cellGet g j := by
  unfold cellGet cellSet
  by_cases h0 : 0 ≤ i
  · by_cases h1 : 0 ≤ j
    · rw [if_pos h0, if_pos h1, if_pos h1]
      exact listGetD_set_ne g i.toNat j.toNat v _ (by omega)
    · rw [if_pos h0, if_neg h1, if_neg h1]
  · rw [if_neg h0]

theorem cellGet_cellSet_preserve (g : List CellType) (i j : Int) (v : CellType)
    (hv : v ≠ CellType.ECT_Empty) (h : cellGet g j ≠ CellType.ECT_Empty) :
    cellGet (cellSet g i v) j ≠ CellType.ECT_Empty := by
  by_cases hij : i = j
  · subst hij
    by_cases h0 : 0 ≤ i
    · by_cases hl : i < (g.length : Int)
      · rw [cellGet_cellSet_eq g i v h0 hl]
        exact hv
      · unfold cellSet
        rw [if_pos h0, List.set_eq_of_length_le (by omega)]
        exact h
    · unfold cellSet
      rw [if_neg h0]
      exact h
  · rw [cellGet_cellSet_ne g i j v hij]
    exact h

theorem cellGet_cellSet_floor (g : List CellType) (i j : Int)
    (h : cellGet g j = CellType.ECT_FloorMesh) :
    cellGet (cellSet g i CellType.ECT_FloorMesh) j = CellType.ECT_FloorMesh := by
  by_cases hij : i = j
  · subst hij
    by_cases h0 : 0 ≤ i
    · by_cases hl : i < (g.length : Int)
      · exact cellGet_cellSet_eq g i _ h0 hl
      · unfold cellSet
        rw [if_pos h0, List.set_eq_of_length_le (by omega)]
        exact h
    · unfold cellSet
      rw [if_neg h0]
      exact h
  · rw [cellGet_cellSet_ne g i j _ hij]
    exact h

theorem markCells_length (W : Nat) (g : List CellType) (cells : List (Int × Int)) :
    (markCells W g cells).length = g.length := by
  induction cells generalizing g with
  | nil => rfl
  | cons c t ih =>
    unfold markCells
    simp only [List.foldl_cons]
    rw [show (List.foldl _ _ t : List CellType) = markCells W (cellSet g (idxZ W c) CellType.ECT_FloorMesh) t from rfl]
    rw [ih, cellSet_length]

theorem cellGet_markCells_preserve (W : Nat) (g : List CellType)
    (cells : List (Int × Int)) (j : Int) (h : cellGet g j ≠ CellType.ECT_Empty) :
    cellGet (markCells W g cells) j ≠ CellType.ECT_Empty := by
  induction cells generalizing g with
  | nil => exact h
  | cons c t ih =>
    exact ih _ (cellGet_cellSet_preserve g _ j _ (by simp) h)

theorem cellGet_markCells_floor (W : Nat) (g : List CellType)
    (cells : List (Int × Int)) (j : Int) (h : cellGet g j = CellType.ECT_FloorMesh) :
    cellGet (markCells W g cells) j = CellType.ECT_FloorMesh := by
  induction cells generalizing g with
  | nil => exact h
  | cons c t ih =>
    exact ih _ (cellGet_cellSet_floor g _ j h)

theorem cellGet_markCells_of_notin (W : Nat) (g : List CellType)
    (cells : List (Int × Int)) (j : Int) (h : ∀ c ∈ cells, idxZ W c ≠ j) :
    cellGet (markCells W g cells) j = cellGet g j := by
  induction cells generalizing g with
  | nil => rfl
  | cons c t ih =>
    have hc : idxZ W c ≠ j := h c (List.mem_cons_self ..)
    calc cellGet (markCells W (cellSet g (idxZ W c) CellType.ECT_FloorMesh) t) j
        = cellGet (cellSet g (idxZ W c) CellType.ECT_FloorMesh) j :=
          ih _ fun d hd => h d (List.mem_cons_of_mem _ hd)
      _ = cellGet g j := cellGet_cellSet_ne g _ j _ hc

theorem cellGet_markCells_mem (W : Nat) (g : List CellType)
    (cells : List (Int × Int)) (c : Int × Int) (hc : c ∈ cells)
    (h0 : 0 ≤ idxZ W c) (hl : idxZ W c < (g.length : Int)) :
    cellGet (markCells W g cells) (idxZ W c) = CellType.ECT_FloorMesh := by
  induction cells generalizing g with
  | nil => cases hc
  | cons d t ih =>
    rcases List.mem_cons.mp hc with h | h
    · subst h
      exact cellGet_markCells_floor W _ t _ (cellGet_cellSet_eq g _ _ h0 hl)
    · exact ih _ h (by rwa [cellSet_length])

theorem mem_rectCellList {x0 y0 fw fh : Int} {c : Int × Int} :
    c ∈ rectCellList x0 y0 fw fh ↔
      x0 ≤ c.1 ∧ c.1 < x0 + fw ∧ y0 ≤ c.2 ∧ c.2 < y0 + fh := by
  unfold rectCellList
  simp only [List.mem_flatMap, List.mem_map, List.mem_range]
  constructor
  · rintro ⟨fy, hfy, fx, hfx, rfl⟩
    simp only
    omega
  · rintro ⟨h1, h2, h3, h4⟩
    refine ⟨(c.2 - y0).toNat, by omega, (c.1 - x0).toNat, by omega, ?_⟩
    have e1 : x0 + ((c.1 - x0).toNat : Int) = c.1 := by omega
    have e2 : y0 + ((c.2 - y0).toNat : Int) = c.2 := by omega
    rw [e1, e2]

theorem idxZ_bounds {W H : Nat} {c : Int × Int} (h1 : 0 ≤ c.1) (h2 : c.1 < (W : Int))
    (h3 : 0 ≤ c.2) (h4 : c.2 < (H : Int)) :
    0 ≤ idxZ W c ∧ idxZ W c < (W : Int) * (H : Int) := by
  unfold idxZ
  constructor
  · have := mul_nonneg h3 (show (0 : Int) ≤ (W : Int) by positivity)
    omega
  · have hle : c.2 * (W : Int) + c.1 < (c.2 + 1) * (W : Int) := by nlinarith
    have : (c.2 + 1) * (W : Int) ≤ (H : Int) * (W : Int) :=
      mul_le_mul_of_nonneg_right (by omega) (by positivity)
    nlinarith

/-! ## C8: the concrete door-gap segment scenario -/

/-- A plain mesh with no socket, used by the concrete scenarios. -/
def sampleMesh : MeshData := ⟨0, none, 50⟩

/-- A footprint-2 door whose frame mesh resolves. -/
def sampleDoorSpec : DoorSpec := ⟨some sampleMesh, 2, Rot.zero, 1⟩

/-- A minimal wall catalog (one 1-cell module). -/
def sampleWallData : WallData :=
  ⟨[⟨1, some sampleMesh, none, none, none, 1⟩], none,
   ⟨0, 0, 0⟩, ⟨0, 0, 0⟩, ⟨0, 0, 0⟩, ⟨0, 0, 0⟩, 0, 0, 0, 0⟩

/-- The 10x10 room of the scenario: no overrides, procedural doors off. -/
def scenarioCfg : MasterRoomCfg :=
  { gridW := 10, gridH := 10, actorLocation := ⟨0, 0, 0⟩,
    floorData := none, wallData := some sampleWallData, doorStyleData := none,
    ceilingData := none, shapePreset := none,
    forcedEmptyRegions := [], forcedEmptyFloorCells := [],
    forcedInteriorPlacements := [], forcedWalls := [],
    requiredDoorEdges := [], bEnableProceduralDoors := false,
    minProceduralDoors := 1, maxProceduralDoors := 1, generationSeed := 42 }

/-- The single fixed door: South edge, StartCell 3, footprint 2. -/
def scenarioDoors : List FixedDoorLocation :=
  [⟨WallEdge.South, 3, some sampleDoorSpec, ⟨⟨0, 0, 0⟩, ⟨0, 0, 0⟩⟩⟩]

/-- C8.  With one footprint-2 FixedDoorLocation at StartCell 3 on a South
edge of length 10 and nothing else occupying the boundary, segment
discovery hands wall bin-packing exactly two South segments, covering
cells [0,3) and [5,10), and no South segment covers any cell of [3,5). -/
theorem south_edge_segments_around_door :
    ((generateWallsAndDoors scenarioCfg scenarioDoors).2.2.filter
        fun t => decide (t.1 = WallEdge.South)) =
      [(WallEdge.South, 0, 3), (WallEdge.South, 5, 5)] ∧
    ((generateWallsAndDoors scenarioCfg scenarioDoors).2.2.all
        fun t => !decide (t.1 = WallEdge.South) ||
          (decide (t.2.1 + t.2.2 ≤ 3) || decide (5 ≤ t.2.1))) = true := by
  constructor
  · decide
  · decide

/-! ## C10: atomicity of one forced interior placement -/

/-- C10.  Each forced interior placement is atomic: for any entry processed
by ExecuteForcedPlacements, either some check fails (unresolved mesh, out of
bounds, overlap) and the interior grid, the placement list and the footprint
trace are left exactly as they were, or all checks pass and then exactly one
instance is emitted, every cell of the rotated footprint was Empty and in
bounds beforehand, exactly those cells are ECT_FloorMesh afterwards, and
every other cell is unchanged. -/
theorem forcedPlacement_atomic (cfg : MasterRoomCfg) (st : InteriorState)
    (entry : (Int × Int) × MeshPlacementInfo)
    (hlen : st.grid.length = cfg.gridW * cfg.gridH) :
    ((forcedPlacementStep cfg st entry).grid = st.grid ∧
     (forcedPlacementStep cfg st entry).placements = st.placements ∧
     (forcedPlacementStep cfg st entry).rects = st.rects) ∨
    (∃ mesh yaw fw fh,
      entry.2.meshAsset = some mesh ∧
      (fw, fh) = rotatedFootprint entry.2 yaw ∧
      (forcedPlacementStep cfg st entry).placements =
        st.placements ++ [⟨mesh, interiorTransform entry.1.1 entry.1.2 fw fh yaw⟩] ∧
      (forcedPlacementStep cfg st entry).rects =
        st.rects ++ [⟨entry.1.1, entry.1.2, fw, fh⟩] ∧
      (∀ c ∈ rectCellList entry.1.1 entry.1.2 fw fh,
        (0 ≤ idxZ cfg.gridW c ∧ idxZ cfg.gridW c < (st.grid.length : Int)) ∧
        cellGet st.grid (idxZ cfg.gridW c) = CellType.ECT_Empty) ∧
      (∀ c ∈ rectCellList entry.1.1 entry.1.2 fw fh,
        cellGet (forcedPlacementStep cfg st entry).grid (idxZ cfg.gridW c) =
          CellType.ECT_FloorMesh) ∧
      (∀ j : Int, (∀ c ∈ rectCellList entry.1.1 entry.1.2 fw fh, idxZ cfg.gridW c ≠ j) →
        cellGet (forcedPlacementStep cfg st entry).grid j = cellGet st.grid j)) := by
  obtain ⟨⟨sx, sy⟩, info⟩ := entry
  cases hm : info.meshAsset with
  | none =>
    simp only [forcedPlacementStep, hm]
    exact Or.inl ⟨trivial, trivial, trivial⟩
  | some mesh =>
    simp only [forcedPlacementStep, hm]
    by_cases hcan :
        (!(decide (sx < 0) || decide (sy < 0) ||
          decide ((cfg.gridW : Int) < sx + (rotatedFootprint info (rollRotation info st.stream).1).1) ||
          decide ((cfg.gridH : Int) < sy + (rotatedFootprint info (rollRotation info st.stream).1).2)) &&
          cellsFree cfg.gridW st.grid
            (rectCellList sx sy (rotatedFootprint info (rollRotation info st.stream).1).1
              (rotatedFootprint info (rollRotation info st.stream).1).2)) = true
    · rw [if_pos hcan]
      set rp := rollRotation info st.stream with hrp
      set fp := rotatedFootprint info rp.1 with hfp
      have hb := (Bool.and_eq_true ..).mp hcan
      have hbounds := hb.1
      have hfree := hb.2
      simp only [Bool.not_eq_eq_eq_not, Bool.not_true, Bool.or_eq_false_iff,
        decide_eq_false_iff_not, not_lt] at hbounds
      obtain ⟨⟨⟨hx0, hy0⟩, hxw⟩, hyh⟩ := hbounds
      have hlen2 : (st.grid.length : Int) = (cfg.gridW : Int) * (cfg.gridH : Int) := by
        rw [hlen]
        push_cast
        ring
      refine Or.inr ⟨mesh, rp.1, fp.1, fp.2, rfl, by rw [hfp], rfl, rfl, ?_, ?_, ?_⟩
      · intro c hc
        have hmem := mem_rectCellList.mp hc
        have hidx := idxZ_bounds (c := c) (W := cfg.gridW) (H := cfg.gridH)
          (by omega) (by omega) (by omega) (by omega)
        refine ⟨⟨hidx.1, by omega⟩, ?_⟩
        have hall := (List.all_eq_true.mp hfree) c hc
        simp only [Bool.not_eq_eq_eq_not, Bool.not_true] at hall
        unfold cellBlocked at hall
        simp only [Bool.and_eq_false_iff, decide_eq_false_iff_not, not_not,
          decide_eq_true_eq] at hall
        rcases hall with h | h
        · rcases h with h | h
          · exact absurd hidx.1 h
          · exact absurd (by omega : idxZ cfg.gridW c < (st.grid.length : Int)) h
        · exact h
      · intro c hc
        have hmem := mem_rectCellList.mp hc
        have hidx := idxZ_bounds (c := c) (W := cfg.gridW) (H := cfg.gridH)
          (by omega) (by omega) (by omega) (by omega)
        exact cellGet_markCells_mem cfg.gridW st.grid _ c hc hidx.1 (by omega)
      · intro j hj
        exact cellGet_markCells_of_notin cfg.gridW st.grid _ j hj
    · rw [if_neg hcan]
      exact Or.inl ⟨rfl, rfl, rfl⟩

/-! ## C2 and C3: coverage and no-overlap invariants of the interior packer -/

theorem mem_cellList {W H : Nat} {c : Nat × Nat} :
    c ∈ cellList W H ↔ c.1 < H ∧ c.2 < W := by
  constructor
  · intro h
    obtain ⟨y, hy, hmem⟩ := List.mem_flatMap.mp h
    obtain ⟨x, hx, heq⟩ := List.mem_map.mp hmem
    rw [List.mem_range] at hy hx
    cases heq
    exact ⟨hy, hx⟩
  · intro ⟨h1, h2⟩
    exact List.mem_flatMap.mpr ⟨c.1, List.mem_range.mpr h1,
      List.mem_map.mpr ⟨c.2, List.mem_range.mpr h2, rfl⟩⟩

/-- Two footprint rectangles intersect nowhere on the grid. -/
def rectsDisjoint (r1 r2 : Rect) : Prop :=
  ∀ c : Int × Int,
    ¬(c ∈ rectCellList r1.x r1.y r1.w r1.h ∧ c ∈ rectCellList r2.x r2.y r2.w r2.h)

/-- The invariant the interior passes maintain: the grid keeps its W*H
size, the recorded footprints are pairwise disjoint, and every cell of
every recorded footprint is non-Empty on the grid. -/
def interiorInv (W H : Nat) (st : InteriorState) : Prop :=
  st.grid.length = W * H ∧
  List.Pairwise rectsDisjoint st.rects ∧
  ∀ r ∈ st.rects, ∀ c ∈ rectCellList r.x r.y r.w r.h,
    cellGet st.grid (idxZ W c) ≠ CellType.ECT_Empty

theorem gridLen_cast {W H : Nat} {g : List CellType} (h : g.length = W * H) :
    (g.length : Int) = (W : Int) * (H : Int) := by
  rw [h]
  push_cast
  ring

/-- Cells of a bounds-checked, overlap-checked footprint are valid and
Empty. -/
theorem rectCells_empty_valid {W H : Nat} {g : List CellType} {sx sy fw fh : Int}
    (hlen : g.length = W * H)
    (hx0 : 0 ≤ sx) (hy0 : 0 ≤ sy) (hxw : sx + fw ≤ (W : Int)) (hyh : sy + fh ≤ (H : Int))
    (hfree : cellsFree W g (rectCellList sx sy fw fh) = true) :
    ∀ c ∈ rectCellList sx sy fw fh,
      (0 ≤ idxZ W c ∧ idxZ W c < (g.length : Int)) ∧
      cellGet g (idxZ W c) = CellType.ECT_Empty := by
  intro c hc
  have hmem := mem_rectCellList.mp hc
  have hidx := idxZ_bounds (c := c) (W := W) (H := H)
    (by omega) (by omega) (by omega) (by omega)
  have hlen2 := gridLen_cast (W := W) (H := H) hlen
  refine ⟨⟨hidx.1, by omega⟩, ?_⟩
  have hall := (List.all_eq_true.mp hfree) c hc
  simp only [Bool.not_eq_eq_eq_not, Bool.not_true] at hall
  unfold cellBlocked at hall
  simp only [Bool.and_eq_false_iff, decide_eq_false_iff_not, not_not,
    decide_eq_true_eq] at hall
  rcases hall with h | h
  · rcases h with h | h
    · exact absurd hidx.1 h
    · exact absurd (by omega : idxZ W c < (g.length : Int)) h
  · exact h

/-- Marking a checked footprint and recording its rectangle preserves the
interior invariant, whatever happens to the stream and placements. -/
theorem interiorInv_extend {W H : Nat} {st : InteriorState} {sx sy fw fh : Int}
    (inv : interiorInv W H st)
    (hx0 : 0 ≤ sx) (hy0 : 0 ≤ sy) (hxw : sx + fw ≤ (W : Int)) (hyh : sy + fh ≤ (H : Int))
    (hfree : cellsFree W st.grid (rectCellList sx sy fw fh) = true)
    (s2 : FRandomStream) (pls2 : List Placement) :
    interiorInv W H
      ⟨markCells W st.grid (rectCellList sx sy fw fh), s2, pls2,
       st.rects ++ [⟨sx, sy, fw, fh⟩]⟩ := by
  obtain ⟨hlen, hpw, hcov⟩ := inv
  have hEV := rectCells_empty_valid (W := W) (H := H) hlen hx0 hy0 hxw hyh hfree
  refine ⟨by rw [markCells_length]; exact hlen, ?_, ?_⟩
  · rw [List.pairwise_append]
    refine ⟨hpw, List.pairwise_singleton .., ?_⟩
    intro r hr r2 hr2
    rw [List.mem_singleton] at hr2
    subst hr2
    intro c hcc
    have h1 := hcov r hr c hcc.1
    have h2 := (hEV c hcc.2).2
    exact h1 h2
  · intro r hr c hc
    rcases List.mem_append.mp hr with h | h
    · exact cellGet_markCells_preserve W st.grid _ _ (hcov r h c hc)
    · rw [List.mem_singleton] at h
      subst h
      have hv := (hEV c hc).1
      rw [cellGet_markCells_mem W st.grid _ c hc hv.1 hv.2]
      simp

theorem forcedPlacementStep_inv {W H : Nat} (cfg : MasterRoomCfg)
    (hW : cfg.gridW = W) (hH : cfg.gridH = H) (st : InteriorState)
    (entry : (Int × Int) × MeshPlacementInfo) (inv : interiorInv W H st) :
    interiorInv W H (forcedPlacementStep cfg st entry) := by
  subst hW hH
  obtain ⟨⟨sx, sy⟩, info⟩ := entry
  cases hm : info.meshAsset with
  | none =>
    simp only [forcedPlacementStep, hm]
    exact inv
  | some mesh =>
    simp only [forcedPlacementStep, hm]
    split
    case isTrue hcan =>
      have hb := (Bool.and_eq_true ..).mp hcan
      have hbounds := hb.1
      simp only [Bool.not_eq_eq_eq_not, Bool.not_true, Bool.or_eq_false_iff,
        decide_eq_false_iff_not, not_lt] at hbounds
      obtain ⟨⟨⟨hx0, hy0⟩, hxw⟩, hyh⟩ := hbounds
      exact interiorInv_extend inv hx0 hy0 hxw hyh hb.2 _ _
    case isFalse =>
      exact ⟨inv.1, inv.2.1, inv.2.2⟩

theorem floorScanStep_inv {W H : Nat} (cfg : MasterRoomCfg) (fd : FloorData)
    (hW : cfg.gridW = W) (hH : cfg.gridH = H) (st : InteriorState)
    (c : Nat × Nat) (inv : interiorInv W H st) :
    interiorInv W H (floorScanStep cfg fd st c) := by
  subst hW hH
  unfold floorScanStep
  dsimp only
  split
  · exact inv
  case isFalse =>
    cases hsel : (selectWeightedMesh fd.floorTilePool st.stream).1 with
    | none => exact ⟨inv.1, inv.2.1, inv.2.2⟩
    | some info =>
      simp only
      cases hm : info.meshAsset with
      | none => exact ⟨inv.1, inv.2.1, inv.2.2⟩
      | some mesh =>
        simp only
        split
        case isTrue hcan =>
          have hb := (Bool.and_eq_true ..).mp hcan
          have hbounds := hb.1
          simp only [Bool.not_eq_eq_eq_not, Bool.not_true, Bool.or_eq_false_iff,
            decide_eq_false_iff_not, not_lt] at hbounds
          exact interiorInv_extend inv (by positivity) (by positivity)
            (by omega) (by omega) hb.2 _ _
        case isFalse =>
          exact ⟨inv.1, inv.2.1, inv.2.2⟩

theorem markForcedEmptyCells_inv {W H : Nat} (cfg : MasterRoomCfg)
    (hW : cfg.gridW = W) (hH : cfg.gridH = H) (st : InteriorState)
    (inv : interiorInv W H st) :
    interiorInv W H (markForcedEmptyCells cfg st) := by
  subst hW hH
  unfold markForcedEmptyCells
  obtain ⟨hlen, hpw, hcov⟩ := inv
  set step := fun (g : List CellType) (c : Int × Int) =>
    let i := idxZ cfg.gridW c
    if 0 ≤ i ∧ i < (g.length : Int) ∧ cellGet g i = CellType.ECT_Empty then
      cellSet g i CellType.ECT_Wall
    else g with hstep
  have key : ∀ (l : List (Int × Int)) (g : List CellType),
      (l.foldl step g).length = g.length ∧
      (∀ j, cellGet g j ≠ CellType.ECT_Empty →
        cellGet (l.foldl step g) j ≠ CellType.ECT_Empty) := by
    intro l
    induction l with
    | nil => exact fun g => ⟨rfl, fun _ h => h⟩
    | cons c t ih =>
      intro g
      simp only [List.foldl_cons]
      have hone : (step g c).length = g.length := by
        rw [hstep]
        simp only
        split
        · exact cellSet_length ..
        · rfl
      have honeP : ∀ j, cellGet g j ≠ CellType.ECT_Empty →
          cellGet (step g c) j ≠ CellType.ECT_Empty := by
        intro j hj
        rw [hstep]
        simp only
        split
        · exact cellGet_cellSet_preserve _ _ _ _ (by simp) hj
        · exact hj
      exact ⟨((ih (step g c)).1).trans hone,
        fun j hj => (ih (step g c)).2 j (honeP j hj)⟩
  refine ⟨((key _ _).1).trans hlen, hpw, ?_⟩
  intro r hr c hc
  exact (key _ _).2 _ (hcov r hr c hc)

theorem gapFillStep_inv {W H : Nat} (cfg : MasterRoomCfg) (filler : MeshData)
    (hW : cfg.gridW = W) (hH : cfg.gridH = H) (st : InteriorState)
    (c : Nat × Nat) (hcb : c.1 < H ∧ c.2 < W) (inv : interiorInv W H st) :
    interiorInv W H (gapFillStep cfg filler st c) := by
  subst hW hH
  obtain ⟨hlen, hpw, hcov⟩ := inv
  unfold gapFillStep
  dsimp only
  split
  case isTrue hempty =>
    have hidx := idxZ_bounds (c := ((c.2 : Int), (c.1 : Int))) (W := cfg.gridW) (H := cfg.gridH)
      (by show (0 : Int) ≤ (c.2 : Int); positivity)
      (by show (c.2 : Int) < (cfg.gridW : Int); exact_mod_cast hcb.2)
      (by show (0 : Int) ≤ (c.1 : Int); positivity)
      (by show (c.1 : Int) < (cfg.gridH : Int); exact_mod_cast hcb.1)
    have hlen2 := gridLen_cast (W := cfg.gridW) (H := cfg.gridH) hlen
    have hieq : idxZ cfg.gridW ((c.2 : Int), (c.1 : Int)) =
        (c.1 : Int) * (cfg.gridW : Int) + (c.2 : Int) := by
      unfold idxZ
      simp
    have hmem1 : ∀ d : Int × Int,
        d ∈ rectCellList (c.2 : Int) (c.1 : Int) 1 1 → d = ((c.2 : Int), (c.1 : Int)) := by
      intro d hd
      have := mem_rectCellList.mp hd
      have h1 : d.1 = (c.2 : Int) := by omega
      have h2 : d.2 = (c.1 : Int) := by omega
      exact Prod.ext h1 h2
    refine ⟨by rw [cellSet_length]; exact hlen, ?_, ?_⟩
    · rw [List.pairwise_append]
      refine ⟨hpw, List.pairwise_singleton .., ?_⟩
      intro r hr r2 hr2
      rw [List.mem_singleton] at hr2
      subst hr2
      intro d hdd
      have h1 := hcov r hr d hdd.1
      have hde := hmem1 d hdd.2
      subst hde
      rw [hieq] at h1
      exact h1 hempty
    · intro r hr d hd
      rcases List.mem_append.mp hr with h | h
      · exact cellGet_cellSet_preserve st.grid ((c.1 : Int) * (cfg.gridW : Int) + (c.2 : Int))
          (idxZ cfg.gridW d) CellType.ECT_FloorMesh (by simp) (hcov r h d hd)
      · rw [List.mem_singleton] at h
        subst h
        have hde := hmem1 d hd
        subst hde
        rw [hieq, cellGet_cellSet_eq _ _ _ (by positivity) (by omega)]
        simp
  case isFalse =>
    exact ⟨hlen, hpw, hcov⟩

theorem foldl_inv {α : Type} {W H : Nat} (f : InteriorState → α → InteriorState)
    (l : List α) (st : InteriorState)
    (hf : ∀ st2 c, c ∈ l → interiorInv W H st2 → interiorInv W H (f st2 c))
    (inv : interiorInv W H st) : interiorInv W H (l.foldl f st) := by
  induction l generalizing st with
  | nil => exact inv
  | cons c t ih =>
    exact ih _ (fun st2 d hd => hf st2 d (List.mem_cons_of_mem _ hd))
      (hf st c (List.mem_cons_self ..) inv)

theorem generateFloorAndInterior_inv (cfg : MasterRoomCfg) :
    interiorInv cfg.gridW cfg.gridH (generateFloorAndInterior cfg) := by
  have inv0 : interiorInv cfg.gridW cfg.gridH
      ⟨List.replicate (cfg.gridW * cfg.gridH) CellType.ECT_Empty,
       mkStream cfg.generationSeed, [], []⟩ := by
    refine ⟨List.length_replicate .., List.Pairwise.nil, ?_⟩
    intro r hr
    cases hr
  unfold generateFloorAndInterior
  cases hfd : cfg.floorData with
  | none => exact inv0
  | some fd =>
    simp only
    have inv1 := foldl_inv (forcedPlacementStep cfg) cfg.forcedInteriorPlacements _
      (fun st2 c _ inv => forcedPlacementStep_inv cfg rfl rfl st2 c inv) inv0
    have inv2 := markForcedEmptyCells_inv cfg rfl rfl _ inv1
    have inv3 := foldl_inv (floorScanStep cfg fd) (cellList cfg.gridW cfg.gridH) _
      (fun st2 c _ inv => floorScanStep_inv cfg fd rfl rfl st2 c inv) inv2
    cases hft : fd.defaultFillerTile with
    | none => exact inv3
    | some filler =>
      simp only
      exact foldl_inv (gapFillStep cfg filler) (cellList cfg.gridW cfg.gridH) _
        (fun st2 c hc inv =>
          gapFillStep_inv cfg filler rfl rfl st2 c (mem_cellList.mp hc) inv) inv3

/-- C3.  No two interior placements emitted in one generation run — forced
placements, weighted-scan placements and gap-fill tiles — have intersecting
footprint rectangles on the interior grid. -/
theorem interior_placements_no_overlap (cfg : MasterRoomCfg) :
    List.Pairwise rectsDisjoint (generateFloorAndInterior cfg).rects :=
  (generateFloorAndInterior_inv cfg).2.1

theorem foldl_grid_length {α : Type} (f : InteriorState → α → InteriorState)
    (hf : ∀ st c, (f st c).grid.length = st.grid.length) :
    ∀ (l : List α) (st : InteriorState), (l.foldl f st).grid.length = st.grid.length := by
  intro l
  induction l with
  | nil => exact fun _ => rfl
  | cons c t ih => exact fun st => (ih (f st c)).trans (hf st c)

theorem forcedPlacementStep_grid_length (cfg : MasterRoomCfg) (st : InteriorState)
    (entry : (Int × Int) × MeshPlacementInfo) :
    (forcedPlacementStep cfg st entry).grid.length = st.grid.length := by
  obtain ⟨⟨sx, sy⟩, info⟩ := entry
  cases hm : info.meshAsset with
  | none => simp only [forcedPlacementStep, hm]
  | some mesh =>
    simp only [forcedPlacementStep, hm]
    split
    · exact markCells_length ..
    · rfl

theorem floorScanStep_grid_length (cfg : MasterRoomCfg) (fd : FloorData)
    (st : InteriorState) (c : Nat × Nat) :
    (floorScanStep cfg fd st c).grid.length = st.grid.length := by
  unfold floorScanStep
  dsimp only
  split
  · rfl
  · cases (selectWeightedMesh fd.floorTilePool st.stream).1 with
    | none => rfl
    | some info =>
      dsimp only
      cases info.meshAsset with
      | none => rfl
      | some mesh =>
        dsimp only
        split
        · exact markCells_length ..
        · rfl

theorem markForcedEmptyCells_grid_length (cfg : MasterRoomCfg) (st : InteriorState) :
    (markForcedEmptyCells cfg st).grid.length = st.grid.length := by
  unfold markForcedEmptyCells
  dsimp only
  generalize expandForcedEmptyRegions cfg = l
  induction l generalizing st with
  | nil => rfl
  | cons c t ih =>
    simp only [List.foldl_cons]
    have hone : ∀ g : List CellType,
        (if 0 ≤ idxZ cfg.gridW c ∧ idxZ cfg.gridW c < (g.length : Int) ∧
            cellGet g (idxZ cfg.gridW c) = CellType.ECT_Empty then
          cellSet g (idxZ cfg.gridW c) CellType.ECT_Wall else g).length = g.length := by
      intro g
      split
      · exact cellSet_length ..
      · rfl
    have := ih { st with grid :=
      (if 0 ≤ idxZ cfg.gridW c ∧ idxZ cfg.gridW c < (st.grid.length : Int) ∧
          cellGet st.grid (idxZ cfg.gridW c) = CellType.ECT_Empty then
        cellSet st.grid (idxZ cfg.gridW c) CellType.ECT_Wall else st.grid) }
    simp only at this
    rw [this, hone]

theorem gapFillStep_grid_length (cfg : MasterRoomCfg) (filler : MeshData)
    (st : InteriorState) (c : Nat × Nat) :
    (gapFillStep cfg filler st c).grid.length = st.grid.length := by
  unfold gapFillStep
  dsimp only
  split
  · exact cellSet_length st.grid ((c.1 : Int) * (cfg.gridW : Int) + (c.2 : Int))
      CellType.ECT_FloorMesh
  · rfl

theorem gapFillStep_preserve (cfg : MasterRoomCfg) (filler : MeshData)
    (st : InteriorState) (c : Nat × Nat) (j : Int)
    (h : cellGet st.grid j ≠ CellType.ECT_Empty) :
    cellGet (gapFillStep cfg filler st c).grid j ≠ CellType.ECT_Empty := by
  unfold gapFillStep
  dsimp only
  split
  · exact cellGet_cellSet_preserve st.grid ((c.1 : Int) * (cfg.gridW : Int) + (c.2 : Int))
      j CellType.ECT_FloorMesh (by simp) h
  · exact h

theorem gapFill_fold_preserve (cfg : MasterRoomCfg) (filler : MeshData)
    (l : List (Nat × Nat)) (st : InteriorState) (j : Int)
    (h : cellGet st.grid j ≠ CellType.ECT_Empty) :
    cellGet ((l.foldl (gapFillStep cfg filler) st)).grid j ≠ CellType.ECT_Empty := by
  induction l generalizing st with
  | nil => exact h
  | cons c t ih => exact ih _ (gapFillStep_preserve cfg filler st c j h)

theorem executeForcedPlacements_grid_length (cfg : MasterRoomCfg) (st : InteriorState) :
    (executeForcedPlacements cfg st).grid.length = st.grid.length :=
  foldl_grid_length _ (forcedPlacementStep_grid_length cfg) _ _

theorem gapFill_covers (cfg : MasterRoomCfg) (filler : MeshData)
    (l : List (Nat × Nat)) (st : InteriorState)
    (hlen : st.grid.length = cfg.gridW * cfg.gridH)
    (c : Nat × Nat) (hc : c ∈ l) (hch : c.1 < cfg.gridH) (hcw : c.2 < cfg.gridW) :
    cellGet ((l.foldl (gapFillStep cfg filler) st)).grid
      ((c.1 : Int) * (cfg.gridW : Int) + (c.2 : Int)) ≠ CellType.ECT_Empty := by
  induction l generalizing st with
  | nil => cases hc
  | cons d t ih =>
    rcases List.mem_cons.mp hc with h | h
    · subst h
      simp only [List.foldl_cons]
      apply gapFill_fold_preserve
      unfold gapFillStep
      dsimp only
      split
      case isTrue hempty =>
        have hiv : (c.1 : Int) * (cfg.gridW : Int) + (c.2 : Int) <
            (st.grid.length : Int) := by
          have hn : c.1 * cfg.gridW + c.2 < cfg.gridW * cfg.gridH := by
            calc c.1 * cfg.gridW + c.2 < c.1 * cfg.gridW + cfg.gridW := by omega
              _ = (c.1 + 1) * cfg.gridW := by ring
              _ ≤ cfg.gridH * cfg.gridW := Nat.mul_le_mul_right _ (by omega)
              _ = cfg.gridW * cfg.gridH := Nat.mul_comm ..
          rw [hlen]
          exact_mod_cast hn
        rw [cellGet_cellSet_eq _ _ _ (by positivity) hiv]
        simp
      case isFalse hne => exact hne
    · simp only [List.foldl_cons]
      exact ih _ ((gapFillStep_grid_length cfg filler st d).trans hlen) h

/-- C2.  After the interior packer completes — forced placements,
forced-empty marking, weighted scan and gap fill, with the floor style
resolved and a resolvable default filler tile — every cell (x, y) with
x < W and y < H satisfies InteriorGrid[y*W+x] != Empty, whatever the room
spec, the seed and the designer overrides. -/
theorem interior_full_coverage (cfg : MasterRoomCfg) (fd : FloorData) (filler : MeshData)
    (hfd : cfg.floorData = some fd) (hfiller : fd.defaultFillerTile = some filler)
    (x y : Nat) (hx : x < cfg.gridW) (hy : y < cfg.gridH) :
    cellGet (generateFloorAndInterior cfg).grid
      ((y : Int) * (cfg.gridW : Int) + (x : Int)) ≠ CellType.ECT_Empty := by
  unfold generateFloorAndInterior
  simp only [hfd, hfiller]
  apply gapFill_covers cfg filler _ _ _ (y, x) (mem_cellList.mpr ⟨hy, hx⟩) hy hx
  rw [foldl_grid_length _ (floorScanStep_grid_length cfg fd),
    markForcedEmptyCells_grid_length, executeForcedPlacements_grid_length]
  exact List.length_replicate ..

/-! ## Concrete instances used by witnesses -/

/-- A 1x1 tile whose mesh resolves. -/
def wTile : MeshPlacementInfo :=
  { meshAsset := some sampleMesh, gridFootprintX := 1, gridFootprintY := 1,
    placementWeight := 1, allowedRotations := [0] }

/-- A floor style: one 1x1 tile in the pool, the filler resolves. -/
def wFloorData : FloorData := ⟨[wTile], some sampleMesh⟩

/-- A small concrete room used to instantiate hypothesis-bearing theorems. -/
def wCfg : MasterRoomCfg :=
  { gridW := 2, gridH := 2, actorLocation := ⟨0, 0, 0⟩,
    floorData := some wFloorData, wallData := some sampleWallData,
    doorStyleData := none, ceilingData := none, shapePreset := none,
    forcedEmptyRegions := [], forcedEmptyFloorCells := [],
    forcedInteriorPlacements := [], forcedWalls := [],
    requiredDoorEdges := [], bEnableProceduralDoors := false,
    minProceduralDoors := 1, maxProceduralDoors := 1, generationSeed := 9 }

/-- A fresh 2x2 interior state. -/
def wState : InteriorState :=
  ⟨List.replicate 4 CellType.ECT_Empty, mkStream 1, [], []⟩

/-- A forced 1x1 placement at the origin. -/
def wEntry : (Int × Int) × MeshPlacementInfo := ((0, 0), wTile)

/-- Witness for C2 at the 2x2 room: cell (1,1) of the packed grid is not
Empty. -/
theorem interior_full_coverage_witness :
    cellGet (generateFloorAndInterior wCfg).grid
      (((1 : Nat) : Int) * (wCfg.gridW : Int) + ((1 : Nat) : Int)) ≠
      CellType.ECT_Empty :=
  interior_full_coverage wCfg wFloorData sampleMesh rfl rfl 1 1 (by decide) (by decide)

/-- Witness for C10 at a concrete forced placement on the fresh 2x2 grid. -/
theorem forcedPlacement_atomic_witness :
    ((forcedPlacementStep wCfg wState wEntry).grid = wState.grid ∧
     (forcedPlacementStep wCfg wState wEntry).placements = wState.placements ∧
     (forcedPlacementStep wCfg wState wEntry).rects = wState.rects) ∨
    (∃ mesh yaw fw fh,
      wEntry.2.meshAsset = some mesh ∧
      (fw, fh) = rotatedFootprint wEntry.2 yaw ∧
      (forcedPlacementStep wCfg wState wEntry).placements =
        wState.placements ++ [⟨mesh, interiorTransform wEntry.1.1 wEntry.1.2 fw fh yaw⟩] ∧
      (forcedPlacementStep wCfg wState wEntry).rects =
        wState.rects ++ [⟨wEntry.1.1, wEntry.1.2, fw, fh⟩] ∧
      (∀ c ∈ rectCellList wEntry.1.1 wEntry.1.2 fw fh,
        (0 ≤ idxZ wCfg.gridW c ∧ idxZ wCfg.gridW c < (wState.grid.length : Int)) ∧
        cellGet wState.grid (idxZ wCfg.gridW c) = CellType.ECT_Empty) ∧
      (∀ c ∈ rectCellList wEntry.1.1 wEntry.1.2 fw fh,
        cellGet (forcedPlacementStep wCfg wState wEntry).grid (idxZ wCfg.gridW c) =
          CellType.ECT_FloorMesh) ∧
      (∀ j : Int, (∀ c ∈ rectCellList wEntry.1.1 wEntry.1.2 fw fh, idxZ wCfg.gridW c ≠ j) →
        cellGet (forcedPlacementStep wCfg wState wEntry).grid j = cellGet wState.grid j)) :=
  forcedPlacement_atomic wCfg wState wEntry rfl

/-! ## C4: characterization of the weighted selector -/

theorem sumWeights_nil : sumWeights [] = 0 := rfl

theorem sumWeights_shift (l : List MeshPlacementInfo) (a : ℚ) :
    l.foldl (fun acc m => acc + m.placementWeight) a = a + sumWeights l := by
  induction l generalizing a with
  | nil => simp [sumWeights]
  | cons x t ih =>
    simp only [List.foldl_cons]
    rw [ih (a + x.placementWeight)]
    show _ = a + List.foldl _ (0 + x.placementWeight) t
    rw [ih (0 + x.placementWeight)]
    ring

theorem sumWeights_cons (m : MeshPlacementInfo) (l : List MeshPlacementInfo) :
    sumWeights (m :: l) = m.placementWeight + sumWeights l := by
  show List.foldl _ (0 + m.placementWeight) l = _
  rw [sumWeights_shift]
  ring

/-- The claim-side selection: the first candidate, by position in the pool,
whose cumulative weight (the sum of the weights up to and including it)
reaches the drawn point. -/
def firstReaching (pool : List MeshPlacementInfo) (r : ℚ) : Option MeshPlacementInfo :=
  ((List.range pool.length).find? fun i =>
      decide (r ≤ sumWeights (pool.take (i + 1)))).map
    fun i => pool.getD i default

/-- The claim-side result of a positive-total draw: first candidate whose
cumulative weight reaches r, else the last candidate. -/
def specSelect (pool : List MeshPlacementInfo) (r : ℚ) : Option MeshPlacementInfo :=
  match firstReaching pool r with
  | some m => some m
  | none => pool.getLast?

theorem weightedWalk_eq_find (r : ℚ) (pool : List MeshPlacementInfo) :
    ∀ cur : ℚ,
      weightedWalk r pool cur =
        ((List.range pool.length).find? fun i =>
            decide (r ≤ cur + sumWeights (pool.take (i + 1)))).map
          fun i => pool.getD i default := by
  induction pool with
  | nil => intro cur; rfl
  | cons m t ih =>
    intro cur
    rw [show (m :: t).length = t.length + 1 from rfl, List.range_succ_eq_map,
      List.find?_cons]
    have h0 : (m :: t).take (0 + 1) = [m] := rfl
    by_cases hc : r ≤ cur + m.placementWeight
    · have : decide (r ≤ cur + sumWeights ((m :: t).take (0 + 1))) = true := by
        rw [h0, sumWeights_cons, sumWeights_nil, add_zero]
        exact decide_eq_true hc
      rw [this]
      show weightedWalk r (m :: t) cur = some ((m :: t).getD 0 default)
      unfold weightedWalk
      rw [if_pos hc]
      rfl
    · have : decide (r ≤ cur + sumWeights ((m :: t).take (0 + 1))) = false := by
        rw [h0, sumWeights_cons, sumWeights_nil, add_zero]
        exact decide_eq_false hc
      rw [this]
      show weightedWalk r (m :: t) cur = _
      unfold weightedWalk
      rw [if_neg hc, ih (cur + m.placementWeight), List.find?_map, Option.map_map]
      have hpred : ((fun i => decide (r ≤ cur + sumWeights ((m :: t).take (i + 1)))) ∘
          Nat.succ) = fun i => decide (r ≤ cur + m.placementWeight + sumWeights (t.take (i + 1))) := by
        funext i
        show decide (r ≤ cur + sumWeights ((m :: t).take (i + 1 + 1))) = _
        rw [List.take_succ_cons, sumWeights_cons, add_assoc]
      rw [hpred]
      have hget : ((fun i => (m :: t).getD i default) ∘ Nat.succ) =
          fun i => t.getD i default := by
        funext i
        rfl
      rw [hget]

/-- C4.  The weighted selector: an empty pool yields no candidate and
leaves the stream untouched; a pool whose summed weight is nonpositive
falls back to a uniformly drawn index in [0, n-1]; otherwise the selector
draws r = uniformFloat() * total from the stream and returns the first
candidate whose cumulative weight reaches r, or the last candidate when
none qualifies. -/
theorem selectWeightedMesh_characterization (pool : List MeshPlacementInfo)
    (s : FRandomStream) :
    (pool = [] → selectWeightedMesh pool s = (none, s)) ∧
    (pool ≠ [] → sumWeights pool ≤ 0 →
      0 ≤ (s.randRange 0 ((pool.length : Int) - 1)).1 ∧
      (s.randRange 0 ((pool.length : Int) - 1)).1 ≤ (pool.length : Int) - 1 ∧
      selectWeightedMesh pool s =
        (some (pool.getD (s.randRange 0 ((pool.length : Int) - 1)).1.toNat default),
         (s.randRange 0 ((pool.length : Int) - 1)).2)) ∧
    (pool ≠ [] → 0 < sumWeights pool →
      selectWeightedMesh pool s =
        (specSelect pool (s.fracVal * sumWeights pool), s.mutate)) := by
  refine ⟨?_, ?_, ?_⟩
  · intro h
    subst h
    rfl
  · intro hne hle
    have hn : pool.length ≠ 0 := fun h => hne (List.eq_nil_of_length_eq_zero h)
    have hb := s.randRange_bounds 0 ((pool.length : Int) - 1) (by omega)
    refine ⟨hb.1, hb.2, ?_⟩
    unfold selectWeightedMesh
    rw [if_neg hn, if_pos hle]
  · intro hne hpos
    have hn : pool.length ≠ 0 := fun h => hne (List.eq_nil_of_length_eq_zero h)
    unfold selectWeightedMesh
    rw [if_neg hn, if_neg (not_le.mpr hpos)]
    show (match weightedWalk (s.fracVal * sumWeights pool) pool 0 with
      | some m => some m
      | none => pool.getLast?, s.mutate) = _
    rw [weightedWalk_eq_find]
    unfold specSelect firstReaching
    have : (fun i => decide (s.fracVal * sumWeights pool ≤
        0 + sumWeights (pool.take (i + 1)))) =
        fun i => decide (s.fracVal * sumWeights pool ≤ sumWeights (pool.take (i + 1))) := by
      funext i
      rw [zero_add]
    rw [this]

/-- Witness for C4: the positive-total branch at a two-element pool. -/
theorem selectWeightedMesh_characterization_witness :
    selectWeightedMesh [wTile, wTile] (mkStream 3) =
      (specSelect [wTile, wTile] ((mkStream 3).fracVal * sumWeights [wTile, wTile]),
       (mkStream 3).mutate) :=
  (selectWeightedMesh_characterization [wTile, wTile] (mkStream 3)).2.2
    (by decide) (by norm_num [sumWeights_cons, sumWeights_nil, wTile])

/-! ## C6: greedy largest-fit module selection -/

/-- One update of the best-module scan. -/
def bstep (rem : Int) (best : Option WallModule) (m : WallModule) : Option WallModule :=
  if m.yAxisFootprint ≤ rem then
    match best with
    | none => some m
    | some b => if b.yAxisFootprint < m.yAxisFootprint then some m else best
  else best

theorem findBestWallModule_eq_foldl (mods : List WallModule) (rem : Int) :
    findBestWallModule mods rem = mods.foldl (bstep rem) none := rfl

/-- Combination of a best-so-far with the best of the remaining modules
(the earlier candidate keeps ties). -/
def combineBest : Option WallModule → Option WallModule → Option WallModule
  | none, r => r
  | some a, none => some a
  | some a, some b => if a.yAxisFootprint < b.yAxisFootprint then some b else some a

theorem combineBest_none (r : Option WallModule) : combineBest none r = r := by
  cases r <;> rfl

theorem combineBest_some_some (a b : WallModule) :
    combineBest (some a) (some b) =
      if a.yAxisFootprint < b.yAxisFootprint then some b else some a := rfl

/-- The first module of the catalog with the largest footprint not
exceeding the remaining length, by structural recursion. -/
def specBest (rem : Int) : List WallModule → Option WallModule
  | [] => none
  | m :: t =>
    if m.yAxisFootprint ≤ rem then
      match specBest rem t with
      | none => some m
      | some b => if m.yAxisFootprint < b.yAxisFootprint then some b else some m
    else specBest rem t

theorem foldl_bstep_eq (rem : Int) (mods : List WallModule) :
    ∀ acc : Option WallModule,
      mods.foldl (bstep rem) acc = combineBest acc (specBest rem mods) := by
  induction mods with
  | nil =>
    intro acc
    cases acc <;> rfl
  | cons m t ih =>
    intro acc
    rw [List.foldl_cons, ih (bstep rem acc m)]
    have hspec : specBest rem (m :: t) =
        if m.yAxisFootprint ≤ rem then
          match specBest rem t with
          | none => some m
          | some b => if m.yAxisFootprint < b.yAxisFootprint then some b else some m
        else specBest rem t := rfl
    rw [hspec]
    unfold bstep
    by_cases hfit : m.yAxisFootprint ≤ rem
    · simp only [if_pos hfit]
      cases hs : specBest rem t with
      | none =>
        cases acc with
        | none => rfl
        | some a =>
          show combineBest (if a.yAxisFootprint < m.yAxisFootprint then some m else some a)
            none = combineBest (some a) (some m)
          rw [combineBest_some_some]
          split_ifs <;> rfl
      | some b =>
        cases acc with
        | none =>
          show combineBest (some m) (some b) = combineBest none
            (if m.yAxisFootprint < b.yAxisFootprint then some b else some m)
          rw [combineBest_some_some, combineBest_none]
        | some a =>
          show combineBest (if a.yAxisFootprint < m.yAxisFootprint then some m else some a)
              (some b) = combineBest (some a)
              (if m.yAxisFootprint < b.yAxisFootprint then some b else some m)
          split_ifs <;> simp only [combineBest_some_some] <;> split_ifs <;>
            first | rfl | omega
    · simp only [if_neg hfit]

theorem findBestWallModule_eq_specBest (mods : List WallModule) (rem : Int) :
    findBestWallModule mods rem = specBest rem mods := by
  rw [findBestWallModule_eq_foldl, foldl_bstep_eq]
  rfl

theorem specBest_none_iff (rem : Int) (mods : List WallModule) :
    specBest rem mods = none ↔ ∀ m ∈ mods, ¬(m.yAxisFootprint ≤ rem) := by
  induction mods with
  | nil => simp [specBest]
  | cons m t ih =>
    have hspec : specBest rem (m :: t) =
        if m.yAxisFootprint ≤ rem then
          match specBest rem t with
          | none => some m
          | some b => if m.yAxisFootprint < b.yAxisFootprint then some b else some m
        else specBest rem t := rfl
    rw [hspec]
    by_cases hfit : m.yAxisFootprint ≤ rem
    · rw [if_pos hfit]
      constructor
      · intro h
        exfalso
        have hne : ∀ r : Option WallModule,
            (match r with
              | none => some m
              | some b => if m.yAxisFootprint < b.yAxisFootprint then some b else some m) ≠
              none := by
          intro r
          cases r with
          | none => simp
          | some b =>
            dsimp only
            split_ifs <;> simp
        exact hne (specBest rem t) h
      · intro h
        exact absurd hfit (h m (List.mem_cons_self ..))
    · rw [if_neg hfit, ih]
      constructor
      · intro h m2 hm2
        rcases List.mem_cons.mp hm2 with h2 | h2
        · subst h2
          exact hfit
        · exact h m2 h2
      · intro h m2 hm2
        exact h m2 (List.mem_cons_of_mem _ hm2)

theorem specBest_some (rem : Int) (mods : List WallModule) (b : WallModule)
    (h : specBest rem mods = some b) :
    b.yAxisFootprint ≤ rem ∧
    (∀ m ∈ mods, m.yAxisFootprint ≤ rem → m.yAxisFootprint ≤ b.yAxisFootprint) ∧
    (∃ i : Nat, ∃ hi : i < mods.length, mods.get ⟨i, hi⟩ = b ∧
      ∀ j : Nat, ∀ hj : j < mods.length, j < i →
        (mods.get ⟨j, hj⟩).yAxisFootprint ≤ rem →
        (mods.get ⟨j, hj⟩).yAxisFootprint < b.yAxisFootprint) := by
  induction mods generalizing b with
  | nil => cases h
  | cons m t ih =>
    have hspec : specBest rem (m :: t) =
        if m.yAxisFootprint ≤ rem then
          match specBest rem t with
          | none => some m
          | some b => if m.yAxisFootprint < b.yAxisFootprint then some b else some m
        else specBest rem t := rfl
    rw [hspec] at h
    by_cases hfit : m.yAxisFootprint ≤ rem
    · rw [if_pos hfit] at h
      cases hs : specBest rem t with
      | none =>
        rw [hs] at h
        cases h
        have hall := (specBest_none_iff rem t).mp hs
        refine ⟨hfit, ?_, 0, by simp, rfl, ?_⟩
        · intro m2 hm2 hf2
          rcases List.mem_cons.mp hm2 with h2 | h2
          · subst h2
            exact le_refl _
          · exact absurd hf2 (hall m2 h2)
        · intro j hj hj0
          omega
      | some b2 =>
        rw [hs] at h
        dsimp only at h
        obtain ⟨hb2fit, hb2max, i, hi, hget, hfirst⟩ := ih b2 hs
        by_cases hlt : m.yAxisFootprint < b2.yAxisFootprint
        · rw [if_pos hlt] at h
          cases h
          refine ⟨hb2fit, ?_, i + 1, by simpa using hi, by simpa using hget, ?_⟩
          · intro m2 hm2 hf2
            rcases List.mem_cons.mp hm2 with h2 | h2
            · subst h2
              omega
            · exact hb2max m2 h2 hf2
          · intro j hj hj0 hjf
            cases j with
            | zero =>
              simpa using hlt
            | succ k =>
              have hk : k < t.length := by simpa using hj
              have := hfirst k hk (by omega)
              simpa using this (by simpa using hjf)
        · rw [if_neg hlt] at h
          cases h
          refine ⟨hfit, ?_, 0, by simp, rfl, ?_⟩
          · intro m2 hm2 hf2
            rcases List.mem_cons.mp hm2 with h2 | h2
            · subst h2
              exact le_refl _
            · have := hb2max m2 h2 hf2
              omega
          · intro j hj hj0
            omega
    · rw [if_neg hfit] at h
      obtain ⟨hbfit, hbmax, i, hi, hget, hfirst⟩ := ih b h
      refine ⟨hbfit, ?_, i + 1, by simpa using hi, by simpa using hget, ?_⟩
      · intro m2 hm2 hf2
        rcases List.mem_cons.mp hm2 with h2 | h2
        · subst h2
          exact absurd hf2 hfit
        · exact hbmax m2 h2 hf2
      · intro j hj hj0 hjf
        cases j with
        | zero =>
          exact absurd (by simpa using hjf) hfit
        | succ k =>
          have hk : k < t.length := by simpa using hj
          have := hfirst k hk (by omega)
          simpa using this (by simpa using hjf)

/-- C6.  Wall-segment filling is greedy largest-fit: the selection returns
no module exactly when no catalog module's footprint fits the remaining
length (and then the packing loop stops at once, leaving the remainder
unfilled); a returned module fits, its footprint is maximal among the
fitting modules, and it is the first module in catalog order achieving
that maximum (every earlier fitting module is strictly smaller). -/
theorem fillWallSegment_greedy (mods : List WallModule) (rem : Int) :
    (findBestWallModule mods rem = none ↔
      ∀ m ∈ mods, ¬(m.yAxisFootprint ≤ rem)) ∧
    (∀ b, findBestWallModule mods rem = some b →
      b.yAxisFootprint ≤ rem ∧
      (∀ m ∈ mods, m.yAxisFootprint ≤ rem → m.yAxisFootprint ≤ b.yAxisFootprint) ∧
      (∃ i : Nat, ∃ hi : i < mods.length, mods.get ⟨i, hi⟩ = b ∧
        ∀ j : Nat, ∀ hj : j < mods.length, j < i →
          (mods.get ⟨j, hj⟩).yAxisFootprint ≤ rem →
          (mods.get ⟨j, hj⟩).yAxisFootprint < b.yAxisFootprint)) ∧
    (∀ (cfg : MasterRoomCfg) (wd : WallData) (edge : WallEdge)
       (cells : List (Int × Int)) (rot : Rot) (bn be : Bool) (fuel : Nat) (cur : Int),
      wd.availableWallModules = mods →
      findBestWallModule mods rem = none →
      fillWallSegmentLoop cfg wd edge cells rot bn be (fuel + 1) rem cur = ([], [])) := by
  refine ⟨?_, ?_, ?_⟩
  · rw [findBestWallModule_eq_specBest]
    exact specBest_none_iff rem mods
  · intro b hb
    rw [findBestWallModule_eq_specBest] at hb
    exact specBest_some rem mods b hb
  · intro cfg wd edge cells rot bn be fuel cur hmods hnone
    unfold fillWallSegmentLoop
    split
    · rfl
    · rw [hmods, hnone]

/-! ## C7: behaviour on asset-resolution failure -/

/-- A catalog whose largest module's base mesh fails to resolve while a
smaller resolvable module also fits. -/
def c7WallData : WallData :=
  ⟨[⟨2, none, none, none, none, 1⟩, ⟨1, some sampleMesh, none, none, none, 1⟩], none,
   ⟨0, 0, 0⟩, ⟨0, 0, 0⟩, ⟨0, 0, 0⟩, ⟨0, 0, 0⟩, 0, 0, 0, 0⟩

/-- The scenario room with the failing-mesh catalog. -/
def c7Cfg : MasterRoomCfg :=
  { scenarioCfg with wallData := some c7WallData }

/-- Counterexample to C7 as stated: on a 3-cell segment the selector picks
the footprint-2 module, its base mesh fails to resolve, and the segment
loop emits nothing at all — the resolvable footprint-1 module that fits the
remaining length is never attempted, so the phase does not continue with
its remaining placements. -/
theorem wallSegment_stops_on_asset_failure :
    fillWallSegment c7Cfg WallEdge.South 0 3 = ([], []) ∧
    findBestWallModule c7WallData.availableWallModules 3 =
      some ⟨2, none, none, none, none, 1⟩ ∧
    (c7WallData.availableWallModules.filter
      fun m => decide (m.baseMesh ≠ none) && decide (m.yAxisFootprint ≤ 3)) =
      [⟨1, some sampleMesh, none, none, none, 1⟩] := by
  refine ⟨rfl, rfl, ?_⟩
  rfl

/-- C7 as amended.  A mesh that fails to resolve is skipped as a single
placement in the interior phases — the failed forced entry leaves the state
untouched and processing continues with the remaining entries, and a failed
weighted-scan selection only advances the stream and moves to the next
cell — but in wall segment filling a base mesh that fails to resolve stops
the packing of that segment: no further modules are attempted there. -/
theorem assetFailure_handling :
    (∀ (cfg : MasterRoomCfg) (st : InteriorState)
       (entry : (Int × Int) × MeshPlacementInfo)
       (rest : List ((Int × Int) × MeshPlacementInfo)),
      entry.2.meshAsset = none →
      forcedPlacementStep cfg st entry = st ∧
      List.foldl (forcedPlacementStep cfg) st (entry :: rest) =
        List.foldl (forcedPlacementStep cfg) st rest) ∧
    (∀ (cfg : MasterRoomCfg) (fd : FloorData) (st : InteriorState) (c : Nat × Nat)
       (info : MeshPlacementInfo),
      cellGet st.grid ((c.1 : Int) * (cfg.gridW : Int) + (c.2 : Int)) =
        CellType.ECT_Empty →
      (selectWeightedMesh fd.floorTilePool st.stream).1 = some info →
      info.meshAsset = none →
      floorScanStep cfg fd st c =
        { st with stream := (selectWeightedMesh fd.floorTilePool st.stream).2 }) ∧
    (∀ (cfg : MasterRoomCfg) (wd : WallData) (edge : WallEdge)
       (cells : List (Int × Int)) (rot : Rot) (bn be : Bool) (fuel : Nat)
       (rem cur : Int) (b : WallModule),
      findBestWallModule wd.availableWallModules rem = some b →
      b.baseMesh = none →
      fillWallSegmentLoop cfg wd edge cells rot bn be (fuel + 1) rem cur = ([], [])) := by
  refine ⟨?_, ?_, ?_⟩
  · intro cfg st entry rest hm
    obtain ⟨⟨sx, sy⟩, info⟩ := entry
    dsimp only at hm
    have hstep : forcedPlacementStep cfg st ((sx, sy), info) = st := by
      simp only [forcedPlacementStep, hm]
    exact ⟨hstep, by rw [List.foldl_cons, hstep]⟩
  · intro cfg fd st c info hempty hsel hm
    unfold floorScanStep
    dsimp only
    rw [if_neg (by rw [hempty]; simp), hsel]
    dsimp only
    rw [hm]
  · intro cfg wd edge cells rot bn be fuel rem cur b hfind hm
    unfold fillWallSegmentLoop
    split
    · rfl
    · rw [hfind]
      dsimp only
      rw [hm]

/-! ## C9: vertical layer composition -/

/-- C9.  For every placed base-wall segment: with no resolvable Middle1 no
middle layer is ever placed and Top (when it resolves) is composed directly
onto Base — its world transform is the Base attachment transform (socket or
fallback) composed with the Base world transform; with Middle1 resolvable,
Middle1 chains on Base, Middle2 is placed exactly when it also resolves and
then chains on Middle1 (never without Middle1), and Top stacks on the
topmost present layer: Middle2 when Middle1 and Middle2 both resolve, else
Middle1. -/
theorem vertical_compositor_stacking (seg : WallSegmentInfo) :
    (seg.wallModule.middle1Mesh = none →
      middleForSegment seg = [] ∧
      ∀ t, seg.wallModule.topMesh = some t →
        topForSegment seg =
          [⟨t, Transform.comp (baseAttach seg.baseMesh) seg.baseTransform⟩]) ∧
    (∀ m1, seg.wallModule.middle1Mesh = some m1 →
      (seg.wallModule.middle2Mesh = none →
        middleForSegment seg =
          [⟨m1, Transform.comp (baseAttach seg.baseMesh) seg.baseTransform⟩]) ∧
      (∀ m2, seg.wallModule.middle2Mesh = some m2 →
        middleForSegment seg =
          [⟨m1, Transform.comp (baseAttach seg.baseMesh) seg.baseTransform⟩,
           ⟨m2, Transform.comp (middleAttach m1)
              (Transform.comp (baseAttach seg.baseMesh) seg.baseTransform)⟩]) ∧
      (∀ t, seg.wallModule.topMesh = some t →
        (seg.wallModule.middle2Mesh = none →
          topForSegment seg =
            [⟨t, Transform.comp (middleAttach m1)
                (Transform.comp (baseAttach seg.baseMesh) seg.baseTransform)⟩]) ∧
        (∀ m2, seg.wallModule.middle2Mesh = some m2 →
          topForSegment seg =
            [⟨t, Transform.comp (middleAttach m2)
                (Transform.comp (middleAttach m1)
                  (Transform.comp (baseAttach seg.baseMesh) seg.baseTransform))⟩]))) := by
  refine ⟨?_, ?_⟩
  · intro hm1
    refine ⟨by simp only [middleForSegment, hm1], ?_⟩
    intro t ht
    simp only [topForSegment, ht, hm1]
  · intro m1 hm1
    refine ⟨?_, ?_, ?_⟩
    · intro hm2
      simp only [middleForSegment, hm1, hm2]
    · intro m2 hm2
      simp only [middleForSegment, hm1, hm2]
    · intro t ht
      refine ⟨?_, ?_⟩
      · intro hm2
        simp only [topForSegment, ht, hm1, hm2]
      · intro m2 hm2
        simp only [topForSegment, ht, hm1, hm2]

/-! ## C5: disjointness of fixed-door intervals after door resolution -/

/-- Two half-open cell intervals do not overlap. -/
def intervalsDisjoint (a b : Int × Int) : Prop := a.2 ≤ b.1 ∨ b.2 ≤ a.1

instance : DecidableRel intervalsDisjoint := fun a b =>
  inferInstanceAs (Decidable (a.2 ≤ b.1 ∨ b.2 ≤ a.1))

theorem intervalsDisjoint_symm : Symmetric intervalsDisjoint :=
  fun _ _ h => h.elim Or.inr Or.inl

theorem doorRanges_nonempty (doors : List FixedDoorLocation) (e : WallEdge) :
    ∀ r ∈ doorRangesOnEdge doors e, r.1 < r.2 := by
  intro r hr
  unfold doorRangesOnEdge at hr
  obtain ⟨d, _, hr2⟩ := List.mem_filterMap.mp hr
  cases hdd : d.doorData with
  | none =>
    rw [hdd] at hr2
    cases hr2
  | some spec =>
    rw [hdd] at hr2
    dsimp only at hr2
    split at hr2
    · cases hr2
      dsimp only
      omega
    · cases hr2

theorem doorRanges_append (d1 d2 : List FixedDoorLocation) (e : WallEdge) :
    doorRangesOnEdge (d1 ++ d2) e = doorRangesOnEdge d1 e ++ doorRangesOnEdge d2 e :=
  List.filterMap_append ..

theorem doorRanges_single_same (e : WallEdge) (sc : Int) (sp : DoorSpec)
    (ofs : DoorPositionOffsets) :
    doorRangesOnEdge [⟨e, sc, some sp, ofs⟩] e = [(sc, sc + max 1 sp.frameFootprintY)] := by
  simp [doorRangesOnEdge]

theorem doorRanges_single_other (e e2 : WallEdge) (sc : Int) (sp : DoorSpec)
    (ofs : DoorPositionOffsets) (h : e ≠ e2) :
    doorRangesOnEdge [⟨e, sc, some sp, ofs⟩] e2 = [] := by
  simp [doorRangesOnEdge, h]

theorem scanGaps_lb (es : Int) (L : List (Int × Int)) :
    ∀ (cur : Int) (g : Int × Int), g ∈ scanGaps es cur L →
      cur ≤ g.1 ∨ ∃ r ∈ L, r.2 ≤ g.1 := by
  induction L with
  | nil =>
    intro cur g hg
    unfold scanGaps at hg
    split at hg
    · rw [List.mem_singleton] at hg
      subst hg
      exact Or.inl (le_refl _)
    · cases hg
  | cons r rest ih =>
    intro cur g hg
    unfold scanGaps at hg
    rcases List.mem_append.mp hg with h | h
    · split at h
      · rw [List.mem_singleton] at h
        subst h
        exact Or.inl (le_refl _)
      · cases h
    · rcases ih r.2 g h with h2 | ⟨r2, hr2, h2⟩
      · exact Or.inr ⟨r, List.mem_cons_self .., h2⟩
      · exact Or.inr ⟨r2, List.mem_cons_of_mem _ hr2, h2⟩

theorem scanGaps_disjoint (es : Int) (L : List (Int × Int)) :
    ∀ cur : Int, List.Sorted rangeKeyLE L → List.Pairwise intervalsDisjoint L →
      (∀ r ∈ L, r.1 < r.2) →
      ∀ g ∈ scanGaps es cur L, ∀ r ∈ L, g.1 + g.2 ≤ r.1 ∨ r.2 ≤ g.1 := by
  induction L with
  | nil =>
    intro cur _ _ _ g _ r hr
    cases hr
  | cons r rest ih =>
    intro cur hsort hpw hne g hg r2 hr2
    have hsort2 := List.sorted_cons.mp hsort
    have hpw2 := List.pairwise_cons.mp hpw
    unfold scanGaps at hg
    rcases List.mem_append.mp hg with h | h
    · split at h
      · rw [List.mem_singleton] at h
        subst h
        rcases List.mem_cons.mp hr2 with h2 | h2
        · subst h2
          exact Or.inl (by omega)
        · have := hsort2.1 r2 h2
          unfold rangeKeyLE at this
          exact Or.inl (by omega)
      · cases h
    · rcases List.mem_cons.mp hr2 with h2 | h2
      · subst h2
        rcases scanGaps_lb es rest r2.2 g h with h3 | ⟨r3, hr3, h3⟩
        · exact Or.inr h3
        · have hd := hpw2.1 r3 hr3
          have hs := hsort2.1 r3 hr3
          have hn := hne r3 (List.mem_cons_of_mem _ hr3)
          unfold rangeKeyLE at hs
          unfold intervalsDisjoint at hd
          exact Or.inr (by omega)
      · exact ih r.2 hsort2.2 hpw2.2
          (fun r3 h3 => hne r3 (List.mem_cons_of_mem _ h3)) g h r2 h2

theorem getValidDoorLocations_disjoint (cfg : MasterRoomCfg)
    (doors : List FixedDoorLocation) (e : WallEdge)
    (hpw : List.Pairwise intervalsDisjoint (doorRangesOnEdge doors e)) :
    ∀ g ∈ getValidDoorLocations cfg doors e, ∀ r ∈ doorRangesOnEdge doors e,
      g.1 + g.2 ≤ r.1 ∨ r.2 ≤ g.1 := by
  intro g hg r hr
  unfold getValidDoorLocations at hg
  have hperm := List.perm_insertionSort rangeKeyLE (doorRangesOnEdge doors e)
  have hsort := List.sorted_insertionSort rangeKeyLE (doorRangesOnEdge doors e)
  have hpwL : List.Pairwise intervalsDisjoint
      (List.insertionSort rangeKeyLE (doorRangesOnEdge doors e)) :=
    (hperm.pairwise_iff (fun h => intervalsDisjoint_symm h)).mpr hpw
  have hne : ∀ r2 ∈ List.insertionSort rangeKeyLE (doorRangesOnEdge doors e),
      r2.1 < r2.2 :=
    fun r2 h2 => doorRanges_nonempty doors e r2 (hperm.mem_iff.mp h2)
  exact scanGaps_disjoint (edgeSizeOf cfg e) _ 0 hsort hpwL hne g hg r
    (hperm.mem_iff.mpr hr)

theorem doorAttemptLoop_fits (cfg : MasterRoomCfg) (gapSize : Int) :
    ∀ (fuel : Nat) (s : FRandomStream) (sel : DoorSpec),
      (doorAttemptLoop cfg gapSize fuel s).1 = some sel →
      max 1 sel.frameFootprintY ≤ gapSize := by
  intro fuel
  induction fuel with
  | zero =>
    intro s sel h
    cases h
  | succ n ih =>
    intro s sel h
    unfold doorAttemptLoop at h
    dsimp only at h
    cases hp : (selectRandomDoorFromPool cfg s).1 with
    | none =>
      rw [hp] at h
      exact ih _ sel h
    | some cand =>
      rw [hp] at h
      dsimp only at h
      split at h
      case isTrue hfits =>
        cases h
        exact hfits
      case isFalse =>
        exact ih _ sel h

theorem proceduralEdgeStep_disjoint (cfg : MasterRoomCfg)
    (acc : List FixedDoorLocation × FRandomStream) (e : WallEdge)
    (h : ∀ e2, List.Pairwise intervalsDisjoint (doorRangesOnEdge acc.1 e2)) :
    ∀ e2, List.Pairwise intervalsDisjoint
      (doorRangesOnEdge (proceduralEdgeStep cfg acc e).1 e2) := by
  intro e2
  unfold proceduralEdgeStep
  dsimp only
  set gaps := getValidDoorLocations cfg acc.1 e with hgapsdef
  split
  case isTrue => exact h e2
  case isFalse hlen =>
    set p1 := acc.2.randRange 0 ((gaps.length : Int) - 1) with hp1def
    set gap := gaps.getD p1.1.toNat (0, 0) with hgapdef
    set p2 := doorAttemptLoop cfg gap.2 10 p1.2 with hp2def
    cases hsel : p2.1 with
    | none =>
      dsimp only
      exact h e2
    | some sel =>
      dsimp only
      rw [hp2def] at hsel
      have hfit := doorAttemptLoop_fits cfg gap.2 10 p1.2 sel hsel
      have hb1 := acc.2.randRange_bounds 0 ((gaps.length : Int) - 1) (by omega)
      rw [← hp1def] at hb1
      have hlt : p1.1.toNat < gaps.length := by omega
      have hgapmem : gap ∈ gaps := by
        rw [hgapdef, List.getD_eq_getElem gaps (0, 0) hlt]
        exact List.getElem_mem hlt
      rw [hgapsdef] at hgapmem
      set off := (if 0 < gap.2 - max 1 sel.frameFootprintY
        then p2.2.randRange 0 (gap.2 - max 1 sel.frameFootprintY)
        else ((0 : Int), p2.2)).1 with hoffdef
      have hoffb : 0 ≤ off ∧ off ≤ gap.2 - max 1 sel.frameFootprintY := by
        rw [hoffdef]
        split
        case isTrue hpos => exact p2.2.randRange_bounds 0 _ (le_of_lt hpos)
        case isFalse hnp =>
          refine ⟨le_refl 0, ?_⟩
          dsimp only
          omega
      have hdisj := getValidDoorLocations_disjoint cfg acc.1 e (h e)
      rw [doorRanges_append]
      rcases eq_or_ne e e2 with heq | hne2
      · subst heq
        rw [doorRanges_single_same]
        apply List.pairwise_append.mpr
        refine ⟨h e, by simp, ?_⟩
        intro a ha b hb
        rw [List.mem_singleton] at hb
        subst hb
        have hd := hdisj gap hgapmem a ha
        unfold intervalsDisjoint
        dsimp only
        rcases hd with hd | hd
        · exact Or.inr (by omega)
        · exact Or.inl (by omega)
      · rw [doorRanges_single_other _ _ _ _ _ hne2, List.append_nil]
        exact h e2

theorem foldl_proceduralEdgeStep_disjoint (cfg : MasterRoomCfg) :
    ∀ (es : List WallEdge) (acc : List FixedDoorLocation × FRandomStream),
      (∀ e2, List.Pairwise intervalsDisjoint (doorRangesOnEdge acc.1 e2)) →
      ∀ e2, List.Pairwise intervalsDisjoint
        (doorRangesOnEdge ((es.foldl (proceduralEdgeStep cfg) acc)).1 e2) := by
  intro es
  induction es with
  | nil => intro acc h e2; exact h e2
  | cons e rest ih =>
    intro acc h e2
    exact ih _ (proceduralEdgeStep_disjoint cfg acc e h) e2

theorem placeProceduralDoors_disjoint (cfg : MasterRoomCfg)
    (doorsIn : List FixedDoorLocation) (s : FRandomStream)
    (h : ∀ e, List.Pairwise intervalsDisjoint (doorRangesOnEdge doorsIn e)) :
    ∀ e, List.Pairwise intervalsDisjoint
      (doorRangesOnEdge (placeProceduralDoors cfg doorsIn s).1 e) := by
  intro e
  unfold placeProceduralDoors
  cases hds : cfg.doorStyleData with
  | none => exact h e
  | some dd =>
    dsimp only
    exact foldl_proceduralEdgeStep_disjoint cfg _ _ (fun e2 => h e2) e

theorem wallsCore_doors_of_proc (cfg : MasterRoomCfg) (wd : WallData)
    (d : List FixedDoorLocation) (h : cfg.bEnableProceduralDoors = true) :
    (wallsCore cfg wd d).2.1 =
      (placeProceduralDoors cfg d (mkStream cfg.generationSeed)).1 := by
  unfold wallsCore
  simp [h]

/-- Two designer-authored South doors whose footprints overlap (StartCell 0
and 1, both footprint 2). -/
def c5Doors : List FixedDoorLocation :=
  [⟨WallEdge.South, 0, some sampleDoorSpec, ⟨⟨0, 0, 0⟩, ⟨0, 0, 0⟩⟩⟩,
   ⟨WallEdge.South, 1, some sampleDoorSpec, ⟨⟨0, 0, 0⟩, ⟨0, 0, 0⟩⟩⟩]

/-- C5 counterexample.  The claim promises pairwise-disjoint door intervals
on every edge after door resolution completes, for pre-existing fixed doors
too.  But GenerateWallsAndDoors never checks manually-authored
FixedDoorLocations against each other: with procedural doors disabled the
list passes through resolution verbatim, so two overlapping South doors at
StartCell 0 and 1 (footprint 2 each) survive with overlapping intervals
[0,2) and [1,3). -/
theorem manual_doors_can_overlap_after_resolution :
    ¬ List.Pairwise intervalsDisjoint
      (doorRangesOnEdge (generateWallsAndDoors scenarioCfg c5Doors).2.1
        WallEdge.South) := by
  decide

/-- Glue config for the amended C5 statement: procedural doors enabled with
a resolving door style. -/
def c5wCfg : MasterRoomCfg :=
  { scenarioCfg with
    bEnableProceduralDoors := true
    doorStyleData := some ⟨sampleDoorSpec, []⟩ }

/-- C5 (amended).  Door resolution preserves per-edge disjointness: if the
half-open cell intervals [StartCell, StartCell + footprint) of the incoming
FixedDoorLocation entries are pairwise disjoint on every edge, then after
GenerateWallsAndDoors completes door resolution (pre-existing fixed doors
plus any procedurally appended doors — each of which is placed inside a gap
of GetValidDoorLocations, offset so its footprint stays within the gap),
the intervals on every edge are still pairwise disjoint.  The unconditional
original claim is false: manually-authored doors are never checked against
each other (see the counterexample). -/
theorem door_resolution_preserves_disjoint (cfg : MasterRoomCfg)
    (doors : List FixedDoorLocation)
    (h : ∀ e, List.Pairwise intervalsDisjoint (doorRangesOnEdge doors e)) :
    ∀ e, List.Pairwise intervalsDisjoint
      (doorRangesOnEdge (generateWallsAndDoors cfg doors).2.1 e) := by
  intro e
  unfold generateWallsAndDoors
  cases hwd : cfg.wallData with
  | none => exact h e
  | some wd =>
    dsimp only
    cases hp : cfg.bEnableProceduralDoors with
    | true =>
      rw [if_pos rfl, wallsCore_doors_of_proc cfg wd [] hp]
      exact placeProceduralDoors_disjoint cfg [] (mkStream cfg.generationSeed)
        (fun _ => List.Pairwise.nil) e
    | false =>
      rw [if_neg Bool.false_ne_true, wallsCore_doors_of_not_proc cfg wd doors hp]
      exact h e

theorem door_resolution_preserves_disjoint_witness :
    List.Pairwise intervalsDisjoint
      (doorRangesOnEdge (generateWallsAndDoors c5wCfg []).2.1 WallEdge.North) ∧
    List.Pairwise intervalsDisjoint
      (doorRangesOnEdge (generateWallsAndDoors c5wCfg []).2.1 WallEdge.South) ∧
    List.Pairwise intervalsDisjoint
      (doorRangesOnEdge (generateWallsAndDoors c5wCfg []).2.1 WallEdge.East) ∧
    List.Pairwise intervalsDisjoint
      (doorRangesOnEdge (generateWallsAndDoors c5wCfg []).2.1 WallEdge.West) :=
  ⟨door_resolution_preserves_disjoint c5wCfg []
      (fun _ => List.Pairwise.nil) WallEdge.North,
   door_resolution_preserves_disjoint c5wCfg []
      (fun _ => List.Pairwise.nil) WallEdge.South,
   door_resolution_preserves_disjoint c5wCfg []
      (fun _ => List.Pairwise.nil) WallEdge.East,
   door_resolution_preserves_disjoint c5wCfg []
      (fun _ => List.Pairwise.nil) WallEdge.West⟩

end DungeonGen
